import Mathlib

/-!
Shallow embedding of the core of `fm10k_netdev.c` (Intel fm10k driver, PF_RING
variant): ring resource setup/teardown, buffer reclamation, the MAC/VLAN
address-sync request queue, VLAN state tracking, and the L2-forwarding
acceleration table.  Machine integers are modelled as `Nat` (overflow is
irrelevant on the paths modelled: all quantities are small), pointers as
`Option`, fallible allocation as explicit allocation-outcome parameters, and
linked lists as `List`.
-/

namespace Fm10k

/-- Error codes returned by the modelled functions (negative errnos in C). -/
inductive Errno where
  | ENOMEM
  | EINVAL
  | EACCES
  | EBUSY
  | EADDRNOTAVAIL
  deriving DecidableEq, Repr

/-- Model of `VLAN_N_VID`: number of possible VLAN ids. -/
def VLAN_N_VID : Nat := 4096

/-- Modelled from the spec: `FM10K_VLAN_LENGTH_SHIFT` lives in a header outside
`src/`; the spec only requires that a VLAN request can carry a run length of
consecutive ids in the high bits of the vid field. -/
def FM10K_VLAN_LENGTH_SHIFT : Nat := 16

/-- Modelled from the spec: `FM10K_VLAN_ALL` (header outside `src/`) is the
run-length-encoded request covering every VLAN id. -/
def FM10K_VLAN_ALL : Nat := (VLAN_N_VID - 1) <<< FM10K_VLAN_LENGTH_SHIFT

/-- Modelled from the spec: `FM10K_VLAN_CLEAR` (header outside `src/`) is the
flag bit in a receive ring's `vid` word that disables the default-VLAN accept. -/
def FM10K_VLAN_CLEAR : Nat := 2 ^ 15

/-- Modelled from the spec: `FM10K_MAX_STATIONS` (header outside `src/`), the
absolute cap on forwarding-acceleration stations. -/
def FM10K_MAX_STATIONS : Nat := 63

/-- A MAC address: six octets. -/
abbrev MacAddr := List Nat

/-- Model of `is_multicast_ether_addr`: the least significant bit of the first octet. -/
def is_multicast_ether_addr (addr : MacAddr) : Bool :=
  (addr.headD 0) % 2 = 1

/-- Model of `is_valid_ether_addr`: not the all-zero address and not multicast. -/
def is_valid_ether_addr (addr : MacAddr) : Bool :=
  !is_multicast_ether_addr addr && addr ≠ List.replicate 6 0

/-- Model of `struct fm10k_macvlan_request`: a discriminated union over unicast-MAC,
multicast-MAC and VLAN requests (`FM10K_UC_MAC_REQUEST`,
`FM10K_MC_MAC_REQUEST`, `FM10K_VLAN_REQUEST`). -/
inductive Request where
  | uc_mac (glort : Nat) (addr : MacAddr) (vid : Nat) (set : Bool)
  | mc_mac (glort : Nat) (addr : MacAddr) (vid : Nat) (set : Bool)
  | vlan (vid : Nat) (vsi : Nat) (set : Bool)
  deriving DecidableEq, Repr

/-- Discriminator for VLAN requests. -/
def Request.isVlan : Request → Bool
  | .vlan _ _ _ => true
  | _ => false

/-- Model of `fm10k_queue_vlan_request`: allocate (`allocOk` is the `kzalloc` outcome),
populate, and append at the tail of `interface->macvlan_requests`.  Returns
`-ENOMEM` with the queue unchanged when allocation fails.  The
`fm10k_macvlan_schedule` call only signals the drain worker and does not touch
the queue. -/
def fm10k_queue_vlan_request (allocOk : Bool) (queue : List Request)
    (vid vsi : Nat) (set : Bool) : Except Errno Unit × List Request :=
  if !allocOk then (.error .ENOMEM, queue)
  else (.ok (), queue ++ [.vlan vid vsi set])

/-- Model of `fm10k_queue_mac_request`: allocate, classify the address as multicast or
unicast, populate, and append at the tail of the queue.  Returns `-ENOMEM`
with the queue unchanged when allocation fails. -/
def fm10k_queue_mac_request (allocOk : Bool) (queue : List Request)
    (glort : Nat) (addr : MacAddr) (vid : Nat) (set : Bool) :
    Except Errno Unit × List Request :=
  if !allocOk then (.error .ENOMEM, queue)
  else if is_multicast_ether_addr addr then
    (.ok (), queue ++ [.mc_mac glort addr vid set])
  else
    (.ok (), queue ++ [.uc_mac glort addr vid set])

/-- Model of `fm10k_clear_macvlan_queue`: one pass of `list_for_each_entry_safe` with a
conditional `list_del`/`kfree`, i.e. a filter.  The `switch` falls through
from the matching-glort MAC cases into the VLAN case, so a request is deleted
only when `vlans` is true: MAC requests whose glort matches fall into the
`if (vlans)` test, MAC requests for other glorts hit the early `break`, and
VLAN requests reach the `if (vlans)` test directly. -/
def fm10k_clear_macvlan_queue (queue : List Request) (glort : Nat)
    (vlans : Bool) : List Request :=
  queue.filter fun r =>
    match r with
    | .uc_mac g _ _ _ => if g = glort then !vlans else true
    | .mc_mac g _ _ _ => if g = glort then !vlans else true
    | .vlan _ _ _ => !vlans

/-! ## UDP tunnel port lists (`fm10k_free_udp_port_info`) -/

/-- One `while (port) \x7b list_del; kfree; port = first(list); \x7d` pass that
repeatedly deletes the first entry of a list: with fuel at least the length of
the list it drains it completely. -/
def drainList : Nat → List Nat → List Nat
  | 0, l => l
  | _ + 1, [] => []
  | fuel + 1, _ :: t => drainList fuel t

/-- Model of `fm10k_free_udp_port_info` on the pair (vxlan list, geneve list).  The
first loop drains the vxlan list.  The second loop starts from the first
geneve entry, deletes it, and then — as written in the source — re-reads the
*vxlan* list (not the geneve list) to fetch the next entry, so it keeps
draining the (already empty) vxlan list and terminates. -/
def fm10k_free_udp_port_info (vxlan geneve : List Nat) : List Nat × List Nat :=
  let vx := drainList vxlan.length vxlan
  match geneve with
  | [] => (vx, geneve)
  | _ :: t => (drainList vx.length vx, t)

/-! ## Ring resource manager and buffer reclaimer -/

/-- Modelled from the spec: `sizeof(struct fm10k_tx_desc)` is defined in a
hardware header outside `src/`; the spec only uses it as the opaque Tx
element size class. -/
def fm10k_tx_desc_size : Nat := 16

/-- Modelled from the spec: `sizeof(union fm10k_rx_desc)` (header outside
`src/`), the opaque Rx element size class. -/
def fm10k_rx_desc_size : Nat := 16

/-- Model of `ALIGN(x, 4096)`: round up to the next 4096-byte boundary. -/
def align4096 (x : Nat) : Nat := ((x + 4095) / 4096) * 4096

/-- Model of `struct fm10k_tx_buffer`: per-slot bookkeeping — the owned packet
reference (`skb`), the DMA address, the DMA mapping length, and the
`next_to_watch` marker. -/
structure TxBuffer where
  skb : Option Nat
  dma : Nat
  len : Nat
  next_to_watch : Option Nat
  deriving DecidableEq, Repr

/-- The all-zero `fm10k_tx_buffer` (result of `vzalloc`/`memset`). -/
def TxBuffer.zero : TxBuffer := ⟨none, 0, 0, none⟩

/-- Model of `struct fm10k_ring`, Tx view: element count, the software buffer array
(`tx_buffer`, null when torn down), the descriptor block byte size, the
DMA-coherent descriptor block (`desc`, modelled as its byte contents), and
the device-visible address `dma`. -/
structure TxRing where
  count : Nat
  tx_buffer : Option (List TxBuffer)
  size : Nat
  desc : Option (List Nat)
  dma : Nat
  deriving DecidableEq, Repr

/-- Model of `struct fm10k_rx_buffer`: the owned page reference and its DMA address. -/
structure RxBuffer where
  page : Option Nat
  dma : Nat
  deriving DecidableEq, Repr

/-- The all-zero `fm10k_rx_buffer`. -/
def RxBuffer.zero : RxBuffer := ⟨none, 0⟩

/-- Model of `struct fm10k_ring`, Rx view: adds the partially-assembled packet held at
ring level (`skb`) and the three cursors. -/
structure RxRing where
  count : Nat
  rx_buffer : Option (List RxBuffer)
  size : Nat
  desc : Option (List Nat)
  dma : Nat
  skb : Option Nat
  next_to_alloc : Nat
  next_to_clean : Nat
  next_to_use : Nat
  deriving DecidableEq, Repr

/-- Outcome of the two allocations performed by a single-ring setup: the
`vzalloc` of the buffer array, and the `dma_alloc_coherent` of the descriptor
block together with the device address it hands back. -/
structure Alloc where
  bufOk : Bool
  dmaOk : Bool
  dmaAddr : Nat
  deriving DecidableEq, Repr

/-- Model of `fm10k_setup_tx_resources`: allocate the zeroed buffer array, compute the
descriptor block size (`count * sizeof(tx_desc)` rounded up to 4096), and
allocate the DMA-coherent block.  On either failure the `err:` label frees
the buffer array and nulls it (on `vzalloc` failure `desc` is not written; on
DMA failure `desc` was just assigned the null result). -/
def fm10k_setup_tx_resources (a : Alloc) (r : TxRing) :
    Except Errno Unit × TxRing :=
  if !a.bufOk then (.error .ENOMEM, { r with tx_buffer := none })
  else
    let r1 := { r with tx_buffer := some (List.replicate r.count TxBuffer.zero) }
    let r2 := { r1 with size := align4096 (r1.count * fm10k_tx_desc_size) }
    if !a.dmaOk then (.error .ENOMEM, { r2 with desc := none, tx_buffer := none })
    else (.ok (), { r2 with desc := some (List.replicate r2.size 0), dma := a.dmaAddr })

/-- Model of `fm10k_setup_rx_resources`: identical shape with the Rx element sizes. -/
def fm10k_setup_rx_resources (a : Alloc) (r : RxRing) :
    Except Errno Unit × RxRing :=
  if !a.bufOk then (.error .ENOMEM, { r with rx_buffer := none })
  else
    let r1 := { r with rx_buffer := some (List.replicate r.count RxBuffer.zero) }
    let r2 := { r1 with size := align4096 (r1.count * fm10k_rx_desc_size) }
    if !a.dmaOk then (.error .ENOMEM, { r2 with desc := none, rx_buffer := none })
    else (.ok (), { r2 with desc := some (List.replicate r2.size 0), dma := a.dmaAddr })

/-- Model of `fm10k_unmap_and_free_tx_resource`: release the packet and/or the DMA
mapping, then clear the watch marker, the packet reference and the mapping
length together (the DMA address word itself is left as is). -/
def fm10k_unmap_and_free_tx_resource (b : TxBuffer) : TxBuffer :=
  { b with next_to_watch := none, skb := none, len := 0 }

/-- Model of `fm10k_clean_tx_ring`: no-op when the buffer array is already released;
otherwise unmap and free every slot, then `memset` the buffer array and the
descriptor block back to zero (the ring stays allocated, just emptied). -/
def fm10k_clean_tx_ring (r : TxRing) : TxRing :=
  match r.tx_buffer with
  | none => r
  | some buf =>
    let _ := buf.map fm10k_unmap_and_free_tx_resource
    { r with
      tx_buffer := some (List.replicate r.count TxBuffer.zero),
      desc := r.desc.map fun _ => List.replicate r.size 0 }

/-- Model of `fm10k_clean_rx_ring`: no-op when the buffer array is already released;
otherwise drop the ring-level partial packet, free every slot still holding a
page, `memset` the buffer array and descriptor block, and reset the three
cursors. -/
def fm10k_clean_rx_ring (r : RxRing) : RxRing :=
  match r.rx_buffer with
  | none => r
  | some _ =>
    { r with
      skb := none,
      rx_buffer := some (List.replicate r.count RxBuffer.zero),
      desc := r.desc.map fun _ => List.replicate r.size 0,
      next_to_alloc := 0, next_to_clean := 0, next_to_use := 0 }

/-- Model of `fm10k_free_tx_resources`: clean, release and null the buffer array, and
release the descriptor block only if it is non-null. -/
def fm10k_free_tx_resources (r : TxRing) : TxRing :=
  let r1 := fm10k_clean_tx_ring r
  let r2 := { r1 with tx_buffer := none }
  match r2.desc with
  | none => r2
  | some _ => { r2 with desc := none }

/-- Model of `fm10k_free_rx_resources`: Rx counterpart of the per-queue teardown. -/
def fm10k_free_rx_resources (r : RxRing) : RxRing :=
  let r1 := fm10k_clean_rx_ring r
  let r2 := { r1 with rx_buffer := none }
  match r2.desc with
  | none => r2
  | some _ => { r2 with desc := none }

/-- A Tx ring in the fully-torn-down state: buffer array and descriptor block
both null. -/
def TxRing.tornDown (r : TxRing) : Prop := r.tx_buffer = none ∧ r.desc = none

/-- An Rx ring in the fully-torn-down state. -/
def RxRing.tornDown (r : RxRing) : Prop := r.rx_buffer = none ∧ r.desc = none

instance (r : TxRing) : Decidable r.tornDown := by
  unfold TxRing.tornDown; infer_instance

instance (r : RxRing) : Decidable r.tornDown := by
  unfold RxRing.tornDown; infer_instance

/-- Model of `fm10k_setup_all_tx_resources`: iterate queues in index order; on the
first failure rewind, freeing the already-populated rings via the single-ring
teardown (the C rewind runs in reverse index order; the resulting state is
the same as freeing each prefix ring).  `done` is the processed prefix and
`i` the index of the head of `rest`. -/
def setupAllTxGo (oracle : Nat → Alloc) (i : Nat) (done rest : List TxRing) :
    Except Errno Unit × List TxRing :=
  match rest with
  | [] => (.ok (), done)
  | r :: rest =>
    match fm10k_setup_tx_resources (oracle i) r with
    | (.ok _, r2) => setupAllTxGo oracle (i + 1) (done ++ [r2]) rest
    | (.error e, r2) => (.error e, done.map fm10k_free_tx_resources ++ r2 :: rest)

/-- Entry point of `fm10k_setup_all_tx_resources`. -/
def fm10k_setup_all_tx_resources (oracle : Nat → Alloc) (rings : List TxRing) :
    Except Errno Unit × List TxRing :=
  setupAllTxGo oracle 0 [] rings

/-- Rx counterpart of the all-queues setup loop. -/
def setupAllRxGo (oracle : Nat → Alloc) (i : Nat) (done rest : List RxRing) :
    Except Errno Unit × List RxRing :=
  match rest with
  | [] => (.ok (), done)
  | r :: rest =>
    match fm10k_setup_rx_resources (oracle i) r with
    | (.ok _, r2) => setupAllRxGo oracle (i + 1) (done ++ [r2]) rest
    | (.error e, r2) => (.error e, done.map fm10k_free_rx_resources ++ r2 :: rest)

/-- Entry point of `fm10k_setup_all_rx_resources`. -/
def fm10k_setup_all_rx_resources (oracle : Nat → Alloc) (rings : List RxRing) :
    Except Errno Unit × List RxRing :=
  setupAllRxGo oracle 0 [] rings

/-- The per-ring states produced by running the single-ring Tx setup on each
ring of a list with consecutive allocation outcomes starting at index `i0`. -/
def setupSeqTx (oracle : Nat → Alloc) (i0 : Nat) : List TxRing → List TxRing
  | [] => []
  | r :: t => (fm10k_setup_tx_resources (oracle i0) r).2 :: setupSeqTx oracle (i0 + 1) t

/-- Rx counterpart of `setupSeqTx`. -/
def setupSeqRx (oracle : Nat → Alloc) (i0 : Nat) : List RxRing → List RxRing
  | [] => []
  | r :: t => (fm10k_setup_rx_resources (oracle i0) r).2 :: setupSeqRx oracle (i0 + 1) t

/-! ### Ring lemmas -/

/-- A slot after `fm10k_unmap_and_free_tx_resource` is fully cleared. -/
def TxBuffer.fullyCleared (b : TxBuffer) : Prop :=
  b.skb = none ∧ b.len = 0 ∧ b.next_to_watch = none

/-- A slot owning an in-flight packet with a live mapping and watch marker. -/
def TxBuffer.fullySet (b : TxBuffer) : Prop :=
  b.skb ≠ none ∧ b.len ≠ 0 ∧ b.next_to_watch ≠ none

instance (b : TxBuffer) : Decidable b.fullyCleared := by
  unfold TxBuffer.fullyCleared; infer_instance

instance (b : TxBuffer) : Decidable b.fullySet := by
  unfold TxBuffer.fullySet; infer_instance

theorem free_tx_tornDown (r : TxRing) : (fm10k_free_tx_resources r).tornDown := by
  unfold fm10k_free_tx_resources TxRing.tornDown
  rcases h : (fm10k_clean_tx_ring r).desc with _ | d <;> simp [h]

theorem free_rx_tornDown (r : RxRing) : (fm10k_free_rx_resources r).tornDown := by
  unfold fm10k_free_rx_resources RxRing.tornDown
  rcases h : (fm10k_clean_rx_ring r).desc with _ | d <;> simp [h]

theorem free_tx_of_tornDown (r : TxRing) (h : r.tornDown) :
    fm10k_free_tx_resources r = r := by
  obtain ⟨c, tb, sz, d, dm⟩ := r
  obtain ⟨h1, h2⟩ := h
  simp only at h1 h2
  subst h1; subst h2
  rfl

theorem free_rx_of_tornDown (r : RxRing) (h : r.tornDown) :
    fm10k_free_rx_resources r = r := by
  obtain ⟨c, rb, sz, d, dm, sk, na, nc, nu⟩ := r
  obtain ⟨h1, h2⟩ := h
  simp only at h1 h2
  subst h1; subst h2
  rfl

theorem setup_tx_fail_error (a : Alloc) (r : TxRing)
    (h : a.bufOk = false ∨ a.dmaOk = false) :
    (fm10k_setup_tx_resources a r).1 = .error .ENOMEM := by
  unfold fm10k_setup_tx_resources
  rcases h with h | h <;> rcases hb : a.bufOk <;> simp_all

theorem setup_rx_fail_error (a : Alloc) (r : RxRing)
    (h : a.bufOk = false ∨ a.dmaOk = false) :
    (fm10k_setup_rx_resources a r).1 = .error .ENOMEM := by
  unfold fm10k_setup_rx_resources
  rcases h with h | h <;> rcases hb : a.bufOk <;> simp_all

theorem setup_tx_fail_tornDown (a : Alloc) (r : TxRing) (hr : r.tornDown)
    (h : a.bufOk = false ∨ a.dmaOk = false) :
    ((fm10k_setup_tx_resources a r).2).tornDown := by
  unfold fm10k_setup_tx_resources
  rcases h with h | h <;> rcases hb : a.bufOk <;> simp_all [TxRing.tornDown]

theorem setup_rx_fail_tornDown (a : Alloc) (r : RxRing) (hr : r.tornDown)
    (h : a.bufOk = false ∨ a.dmaOk = false) :
    ((fm10k_setup_rx_resources a r).2).tornDown := by
  unfold fm10k_setup_rx_resources
  rcases h with h | h <;> rcases hb : a.bufOk <;> simp_all [RxRing.tornDown]

theorem setup_tx_ok (a : Alloc) (r : TxRing) (hb : a.bufOk = true)
    (hd : a.dmaOk = true) :
    fm10k_setup_tx_resources a r =
      (.ok (), { r with
        tx_buffer := some (List.replicate r.count TxBuffer.zero),
        size := align4096 (r.count * fm10k_tx_desc_size),
        desc := some (List.replicate (align4096 (r.count * fm10k_tx_desc_size)) 0),
        dma := a.dmaAddr }) := by
  simp [fm10k_setup_tx_resources, hb, hd]

theorem setup_rx_ok (a : Alloc) (r : RxRing) (hb : a.bufOk = true)
    (hd : a.dmaOk = true) :
    fm10k_setup_rx_resources a r =
      (.ok (), { r with
        rx_buffer := some (List.replicate r.count RxBuffer.zero),
        size := align4096 (r.count * fm10k_rx_desc_size),
        desc := some (List.replicate (align4096 (r.count * fm10k_rx_desc_size)) 0),
        dma := a.dmaAddr }) := by
  simp [fm10k_setup_rx_resources, hb, hd]

theorem setup_tx_succeeds (a : Alloc) (r : TxRing) (hb : a.bufOk = true)
    (hd : a.dmaOk = true) :
    fm10k_setup_tx_resources a r = (.ok (), (fm10k_setup_tx_resources a r).2) := by
  rw [setup_tx_ok a r hb hd]

theorem setup_rx_succeeds (a : Alloc) (r : RxRing) (hb : a.bufOk = true)
    (hd : a.dmaOk = true) :
    fm10k_setup_rx_resources a r = (.ok (), (fm10k_setup_rx_resources a r).2) := by
  rw [setup_rx_ok a r hb hd]

theorem setup_tx_fails (a : Alloc) (r : TxRing)
    (h : a.bufOk = false ∨ a.dmaOk = false) :
    fm10k_setup_tx_resources a r =
      (.error .ENOMEM, (fm10k_setup_tx_resources a r).2) := by
  have h1 := setup_tx_fail_error a r h
  exact Prod.ext h1 rfl

theorem setup_rx_fails (a : Alloc) (r : RxRing)
    (h : a.bufOk = false ∨ a.dmaOk = false) :
    fm10k_setup_rx_resources a r =
      (.error .ENOMEM, (fm10k_setup_rx_resources a r).2) := by
  have h1 := setup_rx_fail_error a r h
  exact Prod.ext h1 rfl

/-- Running the all-queues Tx setup loop over `pre ++ rf :: suf`, where every
allocation for `pre` succeeds and the allocation for `rf` fails: the loop
returns `-ENOMEM`, rewinds over the processed prefix with the single-ring
teardown, leaves the failing ring as the single-ring error path left it, and
never reaches the suffix. -/
theorem setupAllTxGo_fail (oracle : Nat → Alloc) (pre : List TxRing)
    (rf : TxRing) (suf done : List TxRing) (i0 : Nat)
    (hok : ∀ j < pre.length,
      (oracle (i0 + j)).bufOk = true ∧ (oracle (i0 + j)).dmaOk = true)
    (hfail : (oracle (i0 + pre.length)).bufOk = false ∨
      (oracle (i0 + pre.length)).dmaOk = false) :
    setupAllTxGo oracle i0 done (pre ++ rf :: suf) =
      (.error .ENOMEM,
        (done ++ setupSeqTx oracle i0 pre).map fm10k_free_tx_resources ++
          (fm10k_setup_tx_resources (oracle (i0 + pre.length)) rf).2 :: suf) := by
  induction pre generalizing i0 done with
  | nil =>
    simp only [List.nil_append, List.length_nil, Nat.add_zero] at hfail ⊢
    rw [setupAllTxGo, setup_tx_fails (oracle i0) rf hfail]
    simp [setupSeqTx]
  | cons r pre ih =>
    have h0 := hok 0 (by simp)
    simp only [Nat.add_zero] at h0
    rw [List.cons_append, setupAllTxGo, setup_tx_succeeds (oracle i0) r h0.1 h0.2]
    dsimp only
    have hok2 : ∀ j < pre.length,
        (oracle (i0 + 1 + j)).bufOk = true ∧ (oracle (i0 + 1 + j)).dmaOk = true := by
      intro j hj
      have := hok (j + 1) (by simpa using Nat.succ_lt_succ hj)
      simpa [Nat.add_comm, Nat.add_assoc, Nat.add_left_comm] using this
    have hfail2 : (oracle (i0 + 1 + pre.length)).bufOk = false ∨
        (oracle (i0 + 1 + pre.length)).dmaOk = false := by
      have harith : i0 + 1 + pre.length = i0 + (r :: pre).length := by
        simp [Nat.add_comm, Nat.add_assoc, Nat.add_left_comm]
      rw [harith]; exact hfail
    rw [ih (done ++ [(fm10k_setup_tx_resources (oracle i0) r).2]) (i0 + 1) hok2 hfail2]
    have harith2 : i0 + 1 + pre.length = i0 + (r :: pre).length := by
      simp [Nat.add_comm, Nat.add_assoc, Nat.add_left_comm]
    rw [harith2]
    simp [setupSeqTx]

/-- Rx counterpart of `setupAllTxGo_fail`. -/
theorem setupAllRxGo_fail (oracle : Nat → Alloc) (pre : List RxRing)
    (rf : RxRing) (suf done : List RxRing) (i0 : Nat)
    (hok : ∀ j < pre.length,
      (oracle (i0 + j)).bufOk = true ∧ (oracle (i0 + j)).dmaOk = true)
    (hfail : (oracle (i0 + pre.length)).bufOk = false ∨
      (oracle (i0 + pre.length)).dmaOk = false) :
    setupAllRxGo oracle i0 done (pre ++ rf :: suf) =
      (.error .ENOMEM,
        (done ++ setupSeqRx oracle i0 pre).map fm10k_free_rx_resources ++
          (fm10k_setup_rx_resources (oracle (i0 + pre.length)) rf).2 :: suf) := by
  induction pre generalizing i0 done with
  | nil =>
    simp only [List.nil_append, List.length_nil, Nat.add_zero] at hfail ⊢
    rw [setupAllRxGo, setup_rx_fails (oracle i0) rf hfail]
    simp [setupSeqRx]
  | cons r pre ih =>
    have h0 := hok 0 (by simp)
    simp only [Nat.add_zero] at h0
    rw [List.cons_append, setupAllRxGo, setup_rx_succeeds (oracle i0) r h0.1 h0.2]
    dsimp only
    have hok2 : ∀ j < pre.length,
        (oracle (i0 + 1 + j)).bufOk = true ∧ (oracle (i0 + 1 + j)).dmaOk = true := by
      intro j hj
      have := hok (j + 1) (by simpa using Nat.succ_lt_succ hj)
      simpa [Nat.add_comm, Nat.add_assoc, Nat.add_left_comm] using this
    have hfail2 : (oracle (i0 + 1 + pre.length)).bufOk = false ∨
        (oracle (i0 + 1 + pre.length)).dmaOk = false := by
      have harith : i0 + 1 + pre.length = i0 + (r :: pre).length := by
        simp [Nat.add_comm, Nat.add_assoc, Nat.add_left_comm]
      rw [harith]; exact hfail
    rw [ih (done ++ [(fm10k_setup_rx_resources (oracle i0) r).2]) (i0 + 1) hok2 hfail2]
    have harith2 : i0 + 1 + pre.length = i0 + (r :: pre).length := by
      simp [Nat.add_comm, Nat.add_assoc, Nat.add_left_comm]
    rw [harith2]
    simp [setupSeqRx]

/-! ## VLAN state tracker (`fm10k_update_vid`, `fm10k_set_rx_mode`) -/

/-- The xcast mode values (`FM10K_XCAST_MODE_*`). -/
inductive XcastMode where
  | PROMISC
  | ALLMULTI
  | MULTI
  | NONE
  deriving DecidableEq, Repr

/-- The `netdev->flags` bits read by this core. -/
structure NetdevFlags where
  up : Bool
  promisc : Bool
  allmulti : Bool
  broadcast : Bool
  multicast : Bool
  deriving DecidableEq, Repr

/-- Modelled from the spec: `fm10k_is_ies` lives in a header outside `src/`;
the spec describes no IES-tagging configuration for this core, so the
predicate is modelled as the interface not being in IES mode. -/
def fm10k_is_ies : Bool := false

/-- The interface-context state touched by the VLAN state tracker: the
active-VLAN bitmap, the per-receive-ring `vid` words, the administrative
bits, the live xcast mode, the interface working vid, the netdev unicast and
multicast address lists, the MAC/VLAN request queue, and the outcome stream
for the `kzalloc` calls of the request-queueing functions (`allocs k` is the
outcome of the k-th allocation, `tick` the next allocation index). -/
structure Intfc where
  active_vlans : Nat → Bool
  rx_vids : List Nat
  vlan_override : Bool
  default_vid : Nat
  mac_type_vf : Bool
  host_ready : Bool
  macAddr : MacAddr
  glort : Nat
  vid : Nat
  xcast_mode : XcastMode
  down : Bool
  flags : NetdevFlags
  uc_list : List MacAddr
  mc_list : List MacAddr
  queue : List Request
  allocs : Nat → Bool
  tick : Nat

/-- Model of `fm10k_queue_vlan_request` acting on the interface context: consumes one
allocation outcome and appends on success. -/
def queueVlanReq (s : Intfc) (vid vsi : Nat) (set : Bool) :
    Except Errno Unit × Intfc :=
  let ok := s.allocs s.tick
  let p := fm10k_queue_vlan_request ok s.queue vid vsi set
  (p.1, { s with queue := p.2, tick := s.tick + 1 })

/-- Model of `fm10k_queue_mac_request` acting on the interface context. -/
def queueMacReq (s : Intfc) (glort : Nat) (addr : MacAddr) (vid : Nat)
    (set : Bool) : Except Errno Unit × Intfc :=
  let ok := s.allocs s.tick
  let p := fm10k_queue_mac_request ok s.queue glort addr vid set
  (p.1, { s with queue := p.2, tick := s.tick + 1 })

/-- Model of `fm10k_uc_vlan_unsync` / `fm10k_mc_vlan_unsync`: queue a MAC request for
one address under the interface's working VLAN+flag value
(`set = !!(vid / VLAN_N_VID)`, vid masked to 12 bits); the nonzero return
only tells the address-list collaborator this was a partial unsync. -/
def macVlanUnsync (s : Intfc) (addr : MacAddr) : Intfc :=
  let vidSet := decide (s.vid / VLAN_N_VID ≠ 0)
  (queueMacReq s s.glort addr (s.vid % VLAN_N_VID) vidSet).2

/-- Model of `__dev_uc_unsync` / `__dev_mc_unsync` with the vlan-unsync callbacks: the
address-list collaborator walks its list and invokes the callback per
address (a nonzero callback result keeps the address listed and the walk
continues). -/
def unsyncList (s : Intfc) (addrs : List MacAddr) : Intfc :=
  addrs.foldl macVlanUnsync s

/-- Model of `fm10k_update_vid`: vid 0 is a no-op success; vid ≥ 4096 is rejected with
`-EINVAL`; a set under administrative VLAN override is rejected with
`-EACCES`.  Otherwise the bitmap bit becomes `set`, every receive ring's
default-VLAN-accept flag is recomputed, and—unless override is active, the
default vid is being removed, or the interface is down—a VLAN request (only
outside promiscuous/IES mode or for a VF) and a MAC request for the base
address are queued, the working vid is updated, and the unicast/multicast
lists are unsynced under the new value. -/
def fm10k_update_vid (s : Intfc) (vid : Nat) (set : Bool) :
    Except Errno Unit × Intfc :=
  if vid = 0 then (.ok (), s)
  else if VLAN_N_VID ≤ vid then (.error .EINVAL, s)
  else if set && s.vlan_override then (.error .EACCES, s)
  else
    -- set_bit, then clear_bit when clearing: net effect is bit := set
    let s1 := { s with active_vlans := fun j => if j = vid then set else s.active_vlans j }
    -- recompute each rx ring's FM10K_VLAN_CLEAR flag (vid word is a u16)
    let s2 := { s1 with rx_vids := s1.rx_vids.map fun w =>
      if s1.active_vlans (w % VLAN_N_VID) then w ||| FM10K_VLAN_CLEAR
      else w % FM10K_VLAN_CLEAR + (w / (2 * FM10K_VLAN_CLEAR)) * (2 * FM10K_VLAN_CLEAR) }
    if s2.vlan_override then (.ok (), s2)
    else if !set && vid = s2.default_vid then (.ok (), s2)
    else if s2.down then (.ok (), s2)
    else
      let step1 : Except Errno Unit × Intfc :=
        if !(s2.flags.promisc || fm10k_is_ies) || s2.mac_type_vf then
          queueVlanReq s2 vid 0 set
        else (.ok (), s2)
      match step1 with
      | (.error e, s3) => (.error e, s3)
      | (.ok _, s3) =>
        match queueMacReq s3 s3.glort s3.macAddr vid set with
        | (.error e, s4) => (.error e, s4)
        | (.ok _, s4) =>
          let s5 := { s4 with vid := vid + (if set then VLAN_N_VID else 0) }
          let s6 := unsyncList s5 s5.uc_list
          let s7 := unsyncList s6 s6.mc_list
          (.ok (), s7)

/-- Model of `find_next_bit(bitmap, size, offset)`: index of the first set bit in
`[offset, size)`, or `size` if there is none.  Implemented with a fuel
argument that is exactly the length of the scanned range so the function is
structurally recursive and computable. -/
def findNextBitGo (b : Nat → Bool) (size : Nat) : Nat → Nat → Nat
  | 0, _ => size
  | fuel + 1, off =>
    if off < size then (if b off then off else findNextBitGo b size fuel (off + 1))
    else size

/-- Entry point of the `find_next_bit` scan. -/
def find_next_bit (b : Nat → Bool) (size offset : Nat) : Nat :=
  findNextBitGo b size (size - offset) offset

/-- Model of `fm10k_find_next_vlan`: next active VLAN after `vid`, scanning the
bitmap only up to the default vid when `vid` lies below it (so the default
vid acts as a stopping boundary), else up to 4096. -/
def fm10k_find_next_vlan (s : Intfc) (vid : Nat) : Nat :=
  let vid_limit := if vid < s.default_vid then s.default_vid else VLAN_N_VID
  find_next_bit s.active_vlans vid_limit (vid + 1)

/-- The loop of `fm10k_clear_unused_vlans`: walk `(prev_vid, vid)` through
the boundary structure of the bitmap; for each non-empty window
`[prev_vid, vid)` queue one clear request whose vid field carries
`prev_vid` plus the run length `vid - prev_vid - 1` in the high bits; then
advance `prev_vid = vid + 1, vid = fm10k_find_next_vlan(vid)`.  The fuel
only bounds the iteration count (`prev_vid` strictly increases, so 4100
iterations always suffice). -/
def clearUnusedVlansGo : Nat → Intfc → Nat → Nat → Intfc
  | 0, s, _, _ => s
  | fuel + 1, s, prev, vid =>
    if prev < VLAN_N_VID then
      let s2 := if prev = vid then s
        else (queueVlanReq s
          (prev + ((vid - prev - 1) <<< FM10K_VLAN_LENGTH_SHIFT)) 0 false).2
      clearUnusedVlansGo fuel s2 (vid + 1) (fm10k_find_next_vlan s2 vid)
    else s

/-- Model of `fm10k_clear_unused_vlans`: starting from `(prev_vid, vid) = (0, 0)`. -/
def fm10k_clear_unused_vlans (s : Intfc) : Intfc :=
  clearUnusedVlansGo 4100 s 0 0

/-- The VLAN iteration of `__fm10k_uc_sync`/`__fm10k_mc_sync`: the ids
visited by `for (vid = find_next_vlan(0); vid < 4096; vid = find_next_vlan(vid))`. -/
def vlanListGo (s : Intfc) : Nat → Nat → List Nat
  | 0, _ => []
  | fuel + 1, vid =>
    if vid < VLAN_N_VID then vid :: vlanListGo s fuel (fm10k_find_next_vlan s vid)
    else []

/-- Entry point of the sync-loop VLAN iteration. -/
def activeVlanList (s : Intfc) : List Nat :=
  vlanListGo s 4100 (fm10k_find_next_vlan s 0)

/-- Queue one MAC request per visited VLAN id, stopping at the first
enqueue failure (the `if (err) return err;` inside the sync loop). -/
def queueMacVids (glort : Nat) (addr : MacAddr) (sync : Bool) :
    List Nat → Intfc → Except Errno Unit × Intfc
  | [], s => (.ok (), s)
  | v :: vs, s =>
    match queueMacReq s glort addr v sync with
    | (.ok _, s2) => queueMacVids glort addr sync vs s2
    | (.error e, s2) => (.error e, s2)

/-- Model of `__fm10k_uc_sync`: reject invalid addresses, then queue one MAC request
for the address under every active VLAN. -/
def fm10k_uc_sync_shared (s : Intfc) (addr : MacAddr) (sync : Bool) :
    Except Errno Unit × Intfc :=
  if !is_valid_ether_addr addr then (.error .EADDRNOTAVAIL, s)
  else queueMacVids s.glort addr sync (activeVlanList s) s

/-- Model of `__fm10k_mc_sync`: multicast counterpart. -/
def fm10k_mc_sync_shared (s : Intfc) (addr : MacAddr) (sync : Bool) :
    Except Errno Unit × Intfc :=
  if !is_multicast_ether_addr addr then (.error .EADDRNOTAVAIL, s)
  else queueMacVids s.glort addr sync (activeVlanList s) s

/-- Model of `__dev_uc_sync(dev, fm10k_uc_sync, fm10k_uc_unsync)`: the address-list
collaborator invokes the sync callback per address it wants synchronized;
modelled as syncing the unicast list (removals likewise only produce MAC
requests). -/
def dev_uc_sync_model (s : Intfc) : Intfc :=
  s.uc_list.foldl (fun t addr => (fm10k_uc_sync_shared t addr true).2) s

/-- Model of the `__dev_mc_sync` counterpart. -/
def dev_mc_sync_model (s : Intfc) : Intfc :=
  s.mc_list.foldl (fun t addr => (fm10k_mc_sync_shared t addr true).2) s

/-- The xcast mode computed by `fm10k_set_rx_mode` from the interface flags,
in priority order promiscuous > allmulti > (broadcast or multicast) > none. -/
def newXcastMode (f : NetdevFlags) : XcastMode :=
  if f.promisc then .PROMISC
  else if f.allmulti then .ALLMULTI
  else if f.broadcast || f.multicast then .MULTI
  else .NONE

/-- Model of `fm10k_set_rx_mode`: nothing to do when the interface is not up.
Otherwise recompute the xcast mode; if it changed (and IES tagging is off):
on entry into promiscuous queue the set-all-VLANs request, on exit from
promiscuous queue the per-gap clear requests; push the new mode to the
mailbox collaborator directly (external operation) and record it; finally
resynchronize the unicast and multicast address lists. -/
def fm10k_set_rx_mode (s : Intfc) : Intfc :=
  if !s.flags.up then s
  else
    let xcast := newXcastMode s.flags
    let s1 :=
      if s.xcast_mode ≠ xcast then
        let s2 :=
          if !fm10k_is_ies then
            let s3 := if xcast = .PROMISC then
              (queueVlanReq s FM10K_VLAN_ALL 0 true).2 else s
            if s3.xcast_mode = .PROMISC then fm10k_clear_unused_vlans s3 else s3
          else s
        { s2 with xcast_mode := xcast }
      else s
    dev_mc_sync_model (dev_uc_sync_model s1)

/-- Membership predicate the clear-gap walk actually follows: a vid is a
boundary when it is an active member or the administrative default vid. -/
def memberB (active : Nat → Bool) (dv : Nat) : Nat → Bool :=
  fun j => active j || decide (j = dv)

/-- First member at or after `p` (or 4096 when there is none). -/
def nextMember (b : Nat → Bool) (p : Nat) : Nat :=
  find_next_bit b VLAN_N_VID p

/-- Tests whether `s` starts a maximal gap of non-members: it is a non-member in
`[1, 4095]` whose predecessor is a member (or `s = 1`). -/
def isGapStart (b : Nat → Bool) (s : Nat) : Bool :=
  decide (1 ≤ s) && !b s && (decide (s = 1) || b (s - 1))

/-- All maximal gaps `(first id, last id)` of consecutive non-member ids in
`[1, 4095]`, in increasing order. -/
def maximalGaps (b : Nat → Bool) : List (Nat × Nat) :=
  ((List.range VLAN_N_VID).filter (isGapStart b)).map
    fun st => (st, nextMember b st - 1)

/-- The run-length-encoded clear request covering one gap. -/
def gapRequest (g : Nat × Nat) : Request :=
  .vlan (g.1 + ((g.2 - g.1) <<< FM10K_VLAN_LENGTH_SHIFT)) 0 false

/-! ## Forwarding-acceleration table (`fm10k_dfwd_add_station`) -/

/-- Model of `struct fm10k_l2_accel`: table size, live station count, base dglort, and
the station slots (`macvlan`, one entry per slot; in C the flexible array has
exactly `size` entries). -/
structure L2Accel where
  size : Nat
  count : Nat
  dglort : Nat
  macvlan : List (Option Nat)
  deriving DecidableEq, Repr

/-- The interface state touched by the station add path: the interface's
table reference, every receive ring's table reference, the glort range, the
mailbox readiness bits, and the request queue. -/
structure DfwdState where
  l2_accel : Option L2Accel
  ring_l2 : List (Option L2Accel)
  glort_count : Nat
  glort : Nat
  mac_type_vf : Bool
  host_ready : Bool
  default_vid : Nat
  queue : List Request
  deriving DecidableEq, Repr

/-- Model of `fm10k_assign_l2_accel`: publish a table reference to every receive ring
(`rcu_assign_pointer`) and then to the interface. -/
def fm10k_assign_l2_accel (st : DfwdState) (l2 : Option L2Accel) : DfwdState :=
  { st with ring_l2 := st.ring_l2.map fun _ => l2, l2_accel := l2 }

/-- In-place mutation of the shared table object, value-level: every holder
of a pointer to `old` (interface and rings) observes the new contents. -/
def mutateTable (st : DfwdState) (old new : L2Accel) : DfwdState :=
  { st with
    l2_accel := if st.l2_accel = some old then some new else st.l2_accel,
    ring_l2 := st.ring_l2.map fun o => if o = some old then some new else o }

/-- Record a station in the first free slot of a table and bump the live
count (the `for`-loop/`break` search and the two assignments that follow). -/
def insertStation (l2 : L2Accel) (sdev : Nat) : L2Accel :=
  { l2 with
    macvlan := l2.macvlan.set (l2.macvlan.findIdx fun o => o.isNone) (some sdev)
    count := l2.count + 1 }

/-- Tail of `fm10k_dfwd_add_station` common to all three entry cases: find
the first free slot, record the station there and bump the count (an
in-place write through the shared pointer), reconfigure the dglort map
(external hardware operation, no modelled state), and — when the host
mailbox is ready — push the multicast xcast mode (external) and queue a
MAC-add request for the station's assigned glort under the default vid. -/
def addStationTail (macOk : Bool) (st : DfwdState) (l2 : L2Accel)
    (sdev : Nat) (sdevAddr : MacAddr) : Except Errno Nat × DfwdState :=
  let i := l2.macvlan.findIdx fun o => o.isNone
  let st1 := mutateTable st l2 (insertStation l2 sdev)
  let glort := l2.dglort + 1 + i
  let st2 :=
    if st1.mac_type_vf || st1.host_ready then
      { st1 with queue := (fm10k_queue_mac_request macOk st1.queue glort
          sdevAddr st1.default_vid true).2 }
    else st1
  (.ok sdev, st2)

/-- Model of `fm10k_dfwd_add_station`: with no table, require at least 7 free glorts
(`-EBUSY`) and allocate a 7-slot zeroed table (`kOk` is the `kzalloc`
outcome), publishing it to the rings and the interface; with a table at the
absolute station cap or out of identifier space, fail `-EBUSY`; with a full
table, allocate a table of size `2*old+1`, copy the old slots at their
indices (`memcpy`, remaining slots zero), publish it, and retire the old
table via deferred reclamation (`kfree_rcu`); then insert the station at the
first free slot. -/
def fm10k_dfwd_add_station (kOk macOk : Bool) (st : DfwdState) (sdev : Nat)
    (sdevAddr : MacAddr) : Except Errno Nat × DfwdState :=
  match st.l2_accel with
  | none =>
    if st.glort_count < 7 then (.error .EBUSY, st)
    else if !kOk then (.error .ENOMEM, st)
    else
      let l2 : L2Accel := ⟨7, 0, st.glort, List.replicate 7 none⟩
      let st1 := fm10k_assign_l2_accel st (some l2)
      addStationTail macOk st1 l2 sdev sdevAddr
  | some l2 =>
    if l2.count = FM10K_MAX_STATIONS ∨ l2.count = st.glort_count - 1 then
      (.error .EBUSY, st)
    else if l2.count = l2.size then
      if !kOk then (.error .ENOMEM, st)
      else
        let l2n : L2Accel :=
          { l2 with
            size := 2 * l2.size + 1
            macvlan := l2.macvlan ++ List.replicate (l2.size + 1) none }
        let st1 := fm10k_assign_l2_accel st (some l2n)
        addStationTail macOk st1 l2n sdev sdevAddr
    else addStationTail macOk st l2 sdev sdevAddr

/-- A concrete interface context used to evaluate the model at specific
inputs: no active VLANs, default vid 1, administratively up, not a VF, all
request allocations succeeding. -/
def sampleIntfc : Intfc :=
  { active_vlans := fun _ => false
    rx_vids := [0, 0]
    vlan_override := false
    default_vid := 1
    mac_type_vf := false
    host_ready := true
    macAddr := [2, 0, 0, 0, 0, 1]
    glort := 5
    vid := 0
    xcast_mode := .NONE
    down := false
    flags := ⟨true, false, false, true, true⟩
    uc_list := []
    mc_list := []
    queue := []
    allocs := fun _ => true
    tick := 0 }

/-- A concrete interface context that is leaving promiscuous mode: stored
xcast mode promiscuous, new flags broadcast-only, no active VLANs, default
vid 100, every request allocation succeeding. -/
def promiscExitIntfc : Intfc :=
  { sampleIntfc with
    xcast_mode := .PROMISC
    default_vid := 100
    flags := ⟨true, false, false, true, false⟩ }

/-! ## Claim theorems: queue, UDP ports, rings -/

theorem drainList_self (l : List Nat) : drainList l.length l = [] := by
  induction l with
  | nil => rfl
  | cons h t ih => simpa [drainList] using ih

theorem findIdx_isNone_append (l rest : List (Option Nat))
    (hfull : ∀ o ∈ l, o ≠ none) :
    (l ++ none :: rest).findIdx (fun o => o.isNone) = l.length := by
  induction l with
  | nil => simp [List.findIdx_cons]
  | cons a t ih =>
    have ha : a ≠ none := hfull a (by simp)
    have ha2 : a.isNone = false := by
      cases a with
      | none => exact absurd rfl ha
      | some x => rfl
    simp only [List.cons_append, List.findIdx_cons, ha2, cond_false,
      List.length_cons]
    rw [ih fun o ho => hfull o (by simp [ho])]

theorem set_append_get? (l rest : List (Option Nat)) (x : Option Nat) :
    ∀ i, i < l.length → ((l ++ rest).set l.length x).get? i = l.get? i := by
  induction l with
  | nil => intro i h; exact absurd h (by simp)
  | cons a t ih =>
    intro i h
    cases i with
    | zero => rfl
    | succ j =>
      have hj : j < t.length := by simpa using h
      simpa [List.set, List.get?] using ih j hj

/-- C6: `dfwd_add_station` with no table requires at least 7 free
identifiers (`-EBUSY` otherwise) and allocates a table of exactly 7 slots,
publishing it to the interface and every receive ring; with the table at the
station cap or out of identifier space it fails `-EBUSY` leaving the state
unchanged; with a full table (live count = size) and neither cap exhausted
it allocates a table of size `2*old+1`, copies every old slot at its index,
swaps the interface's and every receive ring's reference to the new table,
and inserts the new station in the first free slot. -/
theorem claim_C6_add_station_grow (st : DfwdState) (l2 : L2Accel) (sdev : Nat)
    (addr : MacAddr) (kOk macOk : Bool) :
    (st.l2_accel = none → st.glort_count < 7 →
      fm10k_dfwd_add_station kOk macOk st sdev addr = (.error .EBUSY, st)) ∧
    (st.l2_accel = none → 7 ≤ st.glort_count →
      (fm10k_dfwd_add_station true macOk st sdev addr).1 = .ok sdev ∧
      (fm10k_dfwd_add_station true macOk st sdev addr).2.l2_accel =
        some ⟨7, 1, st.glort, (List.replicate 7 (none : Option Nat)).set 0 (some sdev)⟩ ∧
      (fm10k_dfwd_add_station true macOk st sdev addr).2.ring_l2 =
        st.ring_l2.map (fun _ =>
          some ⟨7, 1, st.glort, (List.replicate 7 (none : Option Nat)).set 0 (some sdev)⟩)) ∧
    (st.l2_accel = some l2 →
      (l2.count = FM10K_MAX_STATIONS ∨ l2.count = st.glort_count - 1) →
      fm10k_dfwd_add_station kOk macOk st sdev addr = (.error .EBUSY, st)) ∧
    (st.l2_accel = some l2 → l2.count = l2.size →
      l2.count ≠ FM10K_MAX_STATIONS → l2.count ≠ st.glort_count - 1 →
      l2.macvlan.length = l2.size → (∀ o ∈ l2.macvlan, o ≠ none) →
      (fm10k_dfwd_add_station true macOk st sdev addr).1 = .ok sdev ∧
      (fm10k_dfwd_add_station true macOk st sdev addr).2.l2_accel =
        some ⟨2 * l2.size + 1, l2.count + 1, l2.dglort,
          (l2.macvlan ++ List.replicate (l2.size + 1) none).set l2.size (some sdev)⟩ ∧
      (fm10k_dfwd_add_station true macOk st sdev addr).2.ring_l2 =
        st.ring_l2.map (fun _ => some ⟨2 * l2.size + 1, l2.count + 1, l2.dglort,
          (l2.macvlan ++ List.replicate (l2.size + 1) none).set l2.size (some sdev)⟩) ∧
      (∀ i, i < l2.size →
        ((l2.macvlan ++ List.replicate (l2.size + 1) none).set l2.size
          (some sdev)).get? i = l2.macvlan.get? i)) := by
  have tail_state : ∀ (mOk : Bool) (s : DfwdState) (t : L2Accel),
      (addStationTail mOk s t sdev addr).1 = .ok sdev ∧
      (addStationTail mOk s t sdev addr).2.l2_accel =
        (mutateTable s t (insertStation t sdev)).l2_accel ∧
      (addStationTail mOk s t sdev addr).2.ring_l2 =
        (mutateTable s t (insertStation t sdev)).ring_l2 := by
    intro mOk s t
    unfold addStationTail
    dsimp only
    refine ⟨rfl, ?_, ?_⟩ <;> (split <;> rfl)
  refine ⟨?_, ?_, ?_, ?_⟩
  · intro hnone hlt
    simp [fm10k_dfwd_add_station, hnone, hlt]
  · intro hnone hge
    have hlt : ¬st.glort_count < 7 := by omega
    have heq : fm10k_dfwd_add_station true macOk st sdev addr =
        addStationTail macOk
          (fm10k_assign_l2_accel st (some ⟨7, 0, st.glort, List.replicate 7 none⟩))
          ⟨7, 0, st.glort, List.replicate 7 none⟩ sdev addr := by
      simp [fm10k_dfwd_add_station, hnone, hlt]
    rw [heq]
    obtain ⟨k1, k2, k3⟩ := tail_state macOk
      (fm10k_assign_l2_accel st (some ⟨7, 0, st.glort, List.replicate 7 none⟩))
      ⟨7, 0, st.glort, List.replicate 7 none⟩
    have hins : insertStation ⟨7, 0, st.glort, List.replicate 7 none⟩ sdev =
        ⟨7, 1, st.glort, (List.replicate 7 (none : Option Nat)).set 0 (some sdev)⟩ :=
      rfl
    refine ⟨k1, ?_, ?_⟩
    · rw [k2, hins]
      simp [mutateTable, fm10k_assign_l2_accel]
    · rw [k3, hins]
      simp [mutateTable, fm10k_assign_l2_accel, List.map_map, Function.comp]
  · intro hsome hcap
    rcases hcap with h | h <;> simp [fm10k_dfwd_add_station, hsome, h]
  · intro hsome hfull hcap1 hcap2 hlen hfree
    have hidx : (l2.macvlan ++ List.replicate (l2.size + 1) none).findIdx
        (fun o : Option Nat => o.isNone) = l2.size := by
      have hrep : (l2.macvlan ++ List.replicate (l2.size + 1) none) =
          l2.macvlan ++ none :: List.replicate l2.size none := by
        simp [List.replicate_succ]
      rw [hrep, findIdx_isNone_append l2.macvlan _ hfree, hlen]
    have hgrown : insertStation
        ⟨2 * l2.size + 1, l2.count, l2.dglort,
          l2.macvlan ++ List.replicate (l2.size + 1) none⟩ sdev =
        ⟨2 * l2.size + 1, l2.count + 1, l2.dglort,
          (l2.macvlan ++ List.replicate (l2.size + 1) none).set l2.size
            (some sdev)⟩ := by
      simp only [insertStation]
      rw [hidx]
    have heq : fm10k_dfwd_add_station true macOk st sdev addr =
        addStationTail macOk
          (fm10k_assign_l2_accel st (some ⟨2 * l2.size + 1, l2.count, l2.dglort,
            l2.macvlan ++ List.replicate (l2.size + 1) none⟩))
          ⟨2 * l2.size + 1, l2.count, l2.dglort,
            l2.macvlan ++ List.replicate (l2.size + 1) none⟩ sdev addr := by
      unfold fm10k_dfwd_add_station
      rw [hsome]
      dsimp only
      rw [if_neg (not_or.mpr ⟨hcap1, hcap2⟩), if_pos hfull]
      simp
    rw [heq]
    obtain ⟨k1, k2, k3⟩ := tail_state macOk
      (fm10k_assign_l2_accel st (some ⟨2 * l2.size + 1, l2.count, l2.dglort,
        l2.macvlan ++ List.replicate (l2.size + 1) none⟩))
      ⟨2 * l2.size + 1, l2.count, l2.dglort,
        l2.macvlan ++ List.replicate (l2.size + 1) none⟩
    refine ⟨k1, ?_, ?_, ?_⟩
    · rw [k2, hgrown]
      simp [mutateTable, fm10k_assign_l2_accel]
    · rw [k3, hgrown]
      simp [mutateTable, fm10k_assign_l2_accel, List.map_map, Function.comp]
    · intro i hi
      have hi2 : i < l2.macvlan.length := by rw [hlen]; exact hi
      have hkey := set_append_get? l2.macvlan
        (List.replicate (l2.size + 1) none) (some sdev) i hi2
      rw [hlen] at hkey
      exact hkey

/-- C6 witness: a full 7-slot table with 20 free identifiers grows to 15
slots, keeps the 7 stations at their indices, inserts station 8 at slot 7,
and swaps both receive rings' references; and an interface with no table and
only 3 identifiers is refused with `-EBUSY`. -/
theorem claim_C6_add_station_grow_witness :
    ((DfwdState.mk (some ⟨7, 7, 10, [some 1, some 2, some 3, some 4, some 5,
        some 6, some 7]⟩) [none, none] 20 10 false true 1 []).l2_accel =
      some ⟨7, 7, 10, [some 1, some 2, some 3, some 4, some 5, some 6, some 7]⟩ ∧
      (7 : Nat) ≠ FM10K_MAX_STATIONS ∧ (7 : Nat) ≠ 20 - 1) ∧
    (fm10k_dfwd_add_station true true
      (DfwdState.mk (some ⟨7, 7, 10, [some 1, some 2, some 3, some 4, some 5,
        some 6, some 7]⟩) [none, none] 20 10 false true 1 [])
      8 [2, 0, 0, 0, 0, 8]).2.l2_accel =
      some ⟨15, 8, 10,
        ([some 1, some 2, some 3, some 4, some 5, some 6, some 7] ++
          List.replicate 8 none).set 7 (some 8)⟩ ∧
    (fm10k_dfwd_add_station true true
      (DfwdState.mk none [] 3 10 false true 1 []) 8 [2, 0, 0, 0, 0, 8]) =
      (.error .EBUSY, DfwdState.mk none [] 3 10 false true 1 []) := by
  refine ⟨⟨rfl, by decide, by decide⟩, ?_, ?_⟩
  · exact ((claim_C6_add_station_grow
      (DfwdState.mk (some ⟨7, 7, 10, [some 1, some 2, some 3, some 4, some 5,
        some 6, some 7]⟩) [none, none] 20 10 false true 1 [])
      ⟨7, 7, 10, [some 1, some 2, some 3, some 4, some 5, some 6, some 7]⟩
      8 [2, 0, 0, 0, 0, 8] true true).2.2.2 rfl rfl (by decide) (by decide)
      rfl (by decide)).2.1
  · exact (claim_C6_add_station_grow
      (DfwdState.mk none [] 3 10 false true 1 [])
      ⟨7, 7, 10, [some 1, some 2, some 3, some 4, some 5, some 6, some 7]⟩
      8 [2, 0, 0, 0, 0, 8] true true).1 rfl (by decide)

/-- C2 counterexample: `update_vid(0, true)` does not return `-EINVAL`; it
returns success (0) as a no-op, with the whole interface state — in
particular the active-VLAN bitmap — unchanged. -/
theorem claim_C2_counterexample_vid0 :
    fm10k_update_vid sampleIntfc 0 true = (.ok (), sampleIntfc) ∧
    (fm10k_update_vid sampleIntfc 0 true).1 ≠ .error .EINVAL := by
  refine ⟨rfl, ?_⟩
  intro h
  exact nomatch h

/-- C2 (amended): `update_vid` rejects every vid ≥ 4096 with `-EINVAL`
leaving the state unchanged, while vid 0 is accepted as a no-op success
(return 0) that also leaves the state — including the bitmap — unchanged. -/
theorem claim_C2_update_vid_range (s : Intfc) (vid : Nat) (set : Bool) :
    fm10k_update_vid s 0 set = (.ok (), s) ∧
    (VLAN_N_VID ≤ vid → fm10k_update_vid s vid set = (.error .EINVAL, s)) := by
  constructor
  · rfl
  · intro h
    have h0 : vid ≠ 0 := by
      intro h1
      rw [h1] at h
      exact absurd h (by decide)
    simp [fm10k_update_vid, h0, h]

/-- C2 witness: vid 5000 is ≥ 4096 and is rejected with `-EINVAL`, state
unchanged; vid 0 with `set` is a no-op success. -/
theorem claim_C2_update_vid_range_witness :
    VLAN_N_VID ≤ 5000 ∧
    fm10k_update_vid sampleIntfc 5000 false = (.error .EINVAL, sampleIntfc) ∧
    fm10k_update_vid sampleIntfc 0 false = (.ok (), sampleIntfc) := by
  refine ⟨by decide, ?_, ?_⟩
  · exact (claim_C2_update_vid_range sampleIntfc 5000 false).2 (by decide)
  · exact (claim_C2_update_vid_range sampleIntfc 5000 false).1

/-- C10: `fm10k_free_udp_port_info` removes and frees every vxlan entry, but
removes at most one geneve entry: after deleting the first geneve entry the
loop re-reads the now-empty vxlan list and terminates, leaving the remaining
geneve entries still linked. -/
theorem claim_C10_free_udp_port_info (vxlan geneve : List Nat) :
    fm10k_free_udp_port_info vxlan geneve = ([], geneve.drop 1) := by
  unfold fm10k_free_udp_port_info
  rw [drainList_self]
  cases geneve with
  | nil => rfl
  | cons h t => rfl

/-- C8: enqueue appends the new request at the tail of the FIFO (queue order
equals enqueue order), fails with `-ENOMEM` exactly when the request
allocation fails, and leaves the queue unchanged in that case. -/
theorem claim_C8_enqueue_append_tail (allocOk : Bool) (q : List Request)
    (vid vsi glort : Nat) (addr : MacAddr) (set : Bool) :
    (allocOk = true →
      fm10k_queue_vlan_request allocOk q vid vsi set =
        (.ok (), q ++ [.vlan vid vsi set]) ∧
      fm10k_queue_mac_request allocOk q glort addr vid set =
        (.ok (), q ++ [if is_multicast_ether_addr addr then
          .mc_mac glort addr vid set else .uc_mac glort addr vid set])) ∧
    (allocOk = false →
      fm10k_queue_vlan_request allocOk q vid vsi set = (.error .ENOMEM, q) ∧
      fm10k_queue_mac_request allocOk q glort addr vid set =
        (.error .ENOMEM, q)) := by
  constructor
  · intro h
    subst h
    refine ⟨rfl, ?_⟩
    by_cases hm : is_multicast_ether_addr addr <;>
      simp [fm10k_queue_mac_request, hm]
  · intro h
    subst h
    exact ⟨rfl, rfl⟩

/-- C8 witness: a successful VLAN enqueue appends at the tail; a failed MAC
enqueue returns `-ENOMEM` and leaves the queue unchanged. -/
theorem claim_C8_enqueue_append_tail_witness :
    fm10k_queue_vlan_request true [.vlan 1 0 false] 7 0 true =
      (.ok (), [.vlan 1 0 false, .vlan 7 0 true]) ∧
    fm10k_queue_mac_request false [.vlan 1 0 false] 3 [2, 0, 0, 0, 0, 1] 9 true =
      (.error .ENOMEM, [.vlan 1 0 false]) := by
  constructor
  · have h := (claim_C8_enqueue_append_tail true [.vlan 1 0 false] 7 0 3
      [2, 0, 0, 0, 0, 1] true).1 rfl
    exact h.1
  · have h := (claim_C8_enqueue_append_tail false [.vlan 1 0 false] 9 0 3
      [2, 0, 0, 0, 0, 1] true).2 rfl
    exact h.2

/-- C1: evaluation of `fm10k_clear_macvlan_queue` at the failing input.  The
claim (and the function's own doc comment) says `cancel(glort, vlans=false)`
removes every MAC request whose glort matches; because the matching-glort MAC
cases fall through into the `if (vlans)` test, the call removes nothing when
`vlans` is false, and the unicast MAC request for glort 5 survives.  With
`vlans = true` the matching MAC request and the VLAN request are removed
while the MAC request of another glort survives, as documented. -/
theorem claim_C1_cancel_failing_input :
    fm10k_clear_macvlan_queue
        [.uc_mac 5 [2, 0, 0, 0, 0, 1] 0 true, .vlan 9 0 true,
         .mc_mac 6 [1, 0, 0, 0, 0, 2] 0 true] 5 false =
      [.uc_mac 5 [2, 0, 0, 0, 0, 1] 0 true, .vlan 9 0 true,
       .mc_mac 6 [1, 0, 0, 0, 0, 2] 0 true] ∧
    fm10k_clear_macvlan_queue
        [.uc_mac 5 [2, 0, 0, 0, 0, 1] 0 true, .vlan 9 0 true,
         .mc_mac 6 [1, 0, 0, 0, 0, 2] 0 true] 5 true =
      [.mc_mac 6 [1, 0, 0, 0, 0, 2] 0 true] := by
  constructor <;> rfl

/-- C4: single-ring setup fails with `-ENOMEM` whenever either the
buffer-array allocation or the DMA descriptor-block allocation fails, and on
descriptor-block failure the buffer array already allocated is released,
leaving the ring fully torn down (both references null). -/
theorem claim_C4_setup_failure_rollback (a : Alloc) (rt : TxRing) (rr : RxRing) :
    ((a.bufOk = false ∨ a.dmaOk = false) →
      (fm10k_setup_tx_resources a rt).1 = .error .ENOMEM ∧
      (fm10k_setup_rx_resources a rr).1 = .error .ENOMEM) ∧
    (a.bufOk = true → a.dmaOk = false →
      ((fm10k_setup_tx_resources a rt).2).tornDown ∧
      ((fm10k_setup_rx_resources a rr).2).tornDown) := by
  constructor
  · intro h
    exact ⟨setup_tx_fail_error a rt h, setup_rx_fail_error a rr h⟩
  · intro hb hd
    constructor
    · unfold fm10k_setup_tx_resources
      simp [hb, hd, TxRing.tornDown]
    · unfold fm10k_setup_rx_resources
      simp [hb, hd, RxRing.tornDown]

/-- C4 witness: with the buffer allocation succeeding and the DMA allocation
failing, both setups report `-ENOMEM` and leave the ring fully torn down. -/
theorem claim_C4_setup_failure_rollback_witness :
    ((Alloc.mk true false 0).bufOk = true ∧ (Alloc.mk true false 0).dmaOk = false) ∧
    (fm10k_setup_tx_resources ⟨true, false, 0⟩ ⟨4, some [], 0, none, 0⟩).1 =
      .error .ENOMEM ∧
    ((fm10k_setup_tx_resources ⟨true, false, 0⟩ ⟨4, some [], 0, none, 0⟩).2).tornDown ∧
    ((fm10k_setup_rx_resources ⟨true, false, 0⟩
      ⟨4, none, 0, none, 0, none, 0, 0, 0⟩).2).tornDown := by
  refine ⟨⟨rfl, rfl⟩, ?_, ?_, ?_⟩
  · exact ((claim_C4_setup_failure_rollback ⟨true, false, 0⟩
      ⟨4, some [], 0, none, 0⟩ ⟨4, none, 0, none, 0, none, 0, 0, 0⟩).1
        (Or.inr rfl)).1
  · exact ((claim_C4_setup_failure_rollback ⟨true, false, 0⟩
      ⟨4, some [], 0, none, 0⟩ ⟨4, none, 0, none, 0, none, 0, 0, 0⟩).2
        rfl rfl).1
  · exact ((claim_C4_setup_failure_rollback ⟨true, false, 0⟩
      ⟨4, some [], 0, none, 0⟩ ⟨4, none, 0, none, 0, none, 0, 0, 0⟩).2
        rfl rfl).2

/-- C9: setup immediately followed by free leaves buffer array and descriptor
block both null, and freeing a never-allocated (fully torn down) ring is a
safe no-op that leaves the ring exactly as it was. -/
theorem claim_C9_setup_free_idempotent (a : Alloc) (rt : TxRing) (rr : RxRing) :
    (fm10k_free_tx_resources (fm10k_setup_tx_resources a rt).2).tornDown ∧
    (fm10k_free_rx_resources (fm10k_setup_rx_resources a rr).2).tornDown ∧
    (rt.tornDown → fm10k_free_tx_resources rt = rt) ∧
    (rr.tornDown → fm10k_free_rx_resources rr = rr) := by
  exact ⟨free_tx_tornDown _, free_rx_tornDown _,
    free_tx_of_tornDown rt, free_rx_of_tornDown rr⟩

/-- C9 witness: a successfully set-up 4-descriptor ring freed right away is
fully torn down, and freeing an already torn-down ring changes nothing. -/
theorem claim_C9_setup_free_idempotent_witness :
    (fm10k_free_tx_resources
      (fm10k_setup_tx_resources ⟨true, true, 3⟩ ⟨4, none, 0, none, 0⟩).2).tornDown ∧
    (TxRing.tornDown ⟨4, none, 0, none, 0⟩) ∧
    fm10k_free_tx_resources ⟨4, none, 0, none, 0⟩ = ⟨4, none, 0, none, 0⟩ ∧
    (RxRing.tornDown ⟨4, none, 0, none, 0, none, 0, 0, 0⟩) ∧
    fm10k_free_rx_resources ⟨4, none, 0, none, 0, none, 0, 0, 0⟩ =
      ⟨4, none, 0, none, 0, none, 0, 0, 0⟩ := by
  refine ⟨?_, ⟨rfl, rfl⟩, ?_, ⟨rfl, rfl⟩, ?_⟩
  · exact (claim_C9_setup_free_idempotent ⟨true, true, 3⟩ ⟨4, none, 0, none, 0⟩
      ⟨4, none, 0, none, 0, none, 0, 0, 0⟩).1
  · exact (claim_C9_setup_free_idempotent ⟨true, true, 3⟩ ⟨4, none, 0, none, 0⟩
      ⟨4, none, 0, none, 0, none, 0, 0, 0⟩).2.2.1 ⟨rfl, rfl⟩
  · exact (claim_C9_setup_free_idempotent ⟨true, true, 3⟩ ⟨4, none, 0, none, 0⟩
      ⟨4, none, 0, none, 0, none, 0, 0, 0⟩).2.2.2 ⟨rfl, rfl⟩

/-- C5: after `fm10k_clean_tx_ring` returns, every slot of the buffer array is
fully set or fully cleared (in fact fully cleared), never partially; the
per-slot helper clears packet reference, mapping length and watch marker
together; and cleaning a ring whose buffer array is already released is a
no-op. -/
theorem claim_C5_clean_tx_ring_slots (r : TxRing) (buf : List TxBuffer)
    (b : TxBuffer) :
    ((fm10k_clean_tx_ring r).tx_buffer = some buf → b ∈ buf →
      b.fullyCleared ∨ b.fullySet) ∧
    (fm10k_unmap_and_free_tx_resource b).fullyCleared ∧
    (r.tx_buffer = none → fm10k_clean_tx_ring r = r) := by
  refine ⟨?_, ⟨rfl, rfl, rfl⟩, ?_⟩
  · intro hbuf hmem
    rcases h : r.tx_buffer with _ | buf0
    · rw [fm10k_clean_tx_ring, h] at hbuf
      rw [h] at hbuf
      cases hbuf
    · rw [fm10k_clean_tx_ring, h] at hbuf
      have hb : buf = List.replicate r.count TxBuffer.zero := by
        have := hbuf
        simp at this
        exact this.symm
      subst hb
      have hz := List.eq_of_mem_replicate hmem
      subst hz
      exact Or.inl ⟨rfl, rfl, rfl⟩
  · intro h
    rw [fm10k_clean_tx_ring, h]

/-- C5 witness: cleaning a live one-slot ring leaves the slot fully cleared,
the per-slot helper fully clears a populated slot, and cleaning a released
ring is a no-op. -/
theorem claim_C5_clean_tx_ring_slots_witness :
    (fm10k_clean_tx_ring
        ⟨1, some [⟨some 9, 4, 100, some 2⟩], 4096, some (List.replicate 4096 0), 0⟩).tx_buffer =
      some [TxBuffer.zero] ∧
    (TxBuffer.zero.fullyCleared ∨ TxBuffer.zero.fullySet) ∧
    (fm10k_unmap_and_free_tx_resource ⟨some 9, 4, 100, some 2⟩).fullyCleared ∧
    ((⟨1, none, 0, none, 0⟩ : TxRing).tx_buffer = none) ∧
    fm10k_clean_tx_ring ⟨1, none, 0, none, 0⟩ = ⟨1, none, 0, none, 0⟩ := by
  have h1 : (fm10k_clean_tx_ring
      ⟨1, some [⟨some 9, 4, 100, some 2⟩], 4096, some (List.replicate 4096 0), 0⟩).tx_buffer =
      some [TxBuffer.zero] := by rfl
  refine ⟨h1, ?_, ?_, rfl, ?_⟩
  · exact (claim_C5_clean_tx_ring_slots
      ⟨1, some [⟨some 9, 4, 100, some 2⟩], 4096, some (List.replicate 4096 0), 0⟩
      [TxBuffer.zero] TxBuffer.zero).1 h1 (by simp)
  · exact (claim_C5_clean_tx_ring_slots ⟨1, none, 0, none, 0⟩ []
      ⟨some 9, 4, 100, some 2⟩).2.1
  · exact (claim_C5_clean_tx_ring_slots ⟨1, none, 0, none, 0⟩ []
      ⟨some 9, 4, 100, some 2⟩).2.2 rfl

/-- C3: when the all-queues setup (Tx and Rx) hits its first per-ring failure
at index `i = pre.length`, it returns the error, rewinds exactly the
previously succeeded rings `0..i-1` through the single-ring teardown (all of
them fully torn down afterwards), leaves the failing ring as the single-ring
error path left it (fully torn down, given it started torn down), and leaves
the rings after `i` untouched (the suffix `suf` appears verbatim). -/
theorem claim_C3_setup_all_first_failure
    (oracle oracleR : Nat → Alloc) (pre suf : List TxRing) (rf : TxRing)
    (preR sufR : List RxRing) (rfR : RxRing) :
    ((∀ j < pre.length, (oracle j).bufOk = true ∧ (oracle j).dmaOk = true) →
      ((oracle pre.length).bufOk = false ∨ (oracle pre.length).dmaOk = false) →
      rf.tornDown →
      fm10k_setup_all_tx_resources oracle (pre ++ rf :: suf) =
        (.error .ENOMEM,
          (setupSeqTx oracle 0 pre).map fm10k_free_tx_resources ++
            (fm10k_setup_tx_resources (oracle pre.length) rf).2 :: suf) ∧
      (∀ r ∈ (setupSeqTx oracle 0 pre).map fm10k_free_tx_resources, r.tornDown) ∧
      ((fm10k_setup_tx_resources (oracle pre.length) rf).2).tornDown) ∧
    ((∀ j < preR.length, (oracleR j).bufOk = true ∧ (oracleR j).dmaOk = true) →
      ((oracleR preR.length).bufOk = false ∨ (oracleR preR.length).dmaOk = false) →
      rfR.tornDown →
      fm10k_setup_all_rx_resources oracleR (preR ++ rfR :: sufR) =
        (.error .ENOMEM,
          (setupSeqRx oracleR 0 preR).map fm10k_free_rx_resources ++
            (fm10k_setup_rx_resources (oracleR preR.length) rfR).2 :: sufR) ∧
      (∀ r ∈ (setupSeqRx oracleR 0 preR).map fm10k_free_rx_resources, r.tornDown) ∧
      ((fm10k_setup_rx_resources (oracleR preR.length) rfR).2).tornDown) := by
  constructor
  · intro hok hfail hrf
    have hok0 : ∀ j < pre.length,
        (oracle (0 + j)).bufOk = true ∧ (oracle (0 + j)).dmaOk = true := by
      simpa using hok
    have hfail0 : (oracle (0 + pre.length)).bufOk = false ∨
        (oracle (0 + pre.length)).dmaOk = false := by simpa using hfail
    have h := setupAllTxGo_fail oracle pre rf suf [] 0 hok0 hfail0
    simp only [Nat.zero_add, List.nil_append] at h
    refine ⟨h, ?_, setup_tx_fail_tornDown _ rf hrf hfail⟩
    intro r hr
    rcases List.mem_map.mp hr with ⟨r0, _, hr0⟩
    rw [← hr0]
    exact free_tx_tornDown r0
  · intro hok hfail hrf
    have hok0 : ∀ j < preR.length,
        (oracleR (0 + j)).bufOk = true ∧ (oracleR (0 + j)).dmaOk = true := by
      simpa using hok
    have hfail0 : (oracleR (0 + preR.length)).bufOk = false ∨
        (oracleR (0 + preR.length)).dmaOk = false := by simpa using hfail
    have h := setupAllRxGo_fail oracleR preR rfR sufR [] 0 hok0 hfail0
    simp only [Nat.zero_add, List.nil_append] at h
    refine ⟨h, ?_, setup_rx_fail_tornDown _ rfR hrf hfail⟩
    intro r hr
    rcases List.mem_map.mp hr with ⟨r0, _, hr0⟩
    rw [← hr0]
    exact free_rx_tornDown r0

/-- C3 witness: three one-descriptor rings with the allocation for index 1
failing — the hypotheses hold at this input and the theorem applies. -/
theorem claim_C3_setup_all_first_failure_witness :
    ((∀ j < 1, ((fun j => if j = 1 then Alloc.mk false true 0
        else Alloc.mk true true 7) j).bufOk = true ∧
        ((fun j => if j = 1 then Alloc.mk false true 0
        else Alloc.mk true true 7) j).dmaOk = true) ∧
      (((fun j => if j = 1 then Alloc.mk false true 0
        else Alloc.mk true true 7) 1).bufOk = false ∨
       ((fun j => if j = 1 then Alloc.mk false true 0
        else Alloc.mk true true 7) 1).dmaOk = false) ∧
      TxRing.tornDown ⟨1, none, 0, none, 0⟩) ∧
    fm10k_setup_all_tx_resources
        (fun j => if j = 1 then Alloc.mk false true 0 else Alloc.mk true true 7)
        ([⟨1, none, 0, none, 0⟩] ++ ⟨1, none, 0, none, 0⟩ :: [⟨1, none, 0, none, 0⟩]) =
      (.error .ENOMEM,
        (setupSeqTx (fun j => if j = 1 then Alloc.mk false true 0
            else Alloc.mk true true 7) 0 [⟨1, none, 0, none, 0⟩]).map
          fm10k_free_tx_resources ++
          (fm10k_setup_tx_resources
            ((fun j => if j = 1 then Alloc.mk false true 0
              else Alloc.mk true true 7) 1) ⟨1, none, 0, none, 0⟩).2 ::
            [⟨1, none, 0, none, 0⟩]) := by
  refine ⟨⟨?_, ?_, ⟨rfl, rfl⟩⟩, ?_⟩
  · decide
  · exact Or.inl rfl
  · have h := (claim_C3_setup_all_first_failure
      (fun j => if j = 1 then Alloc.mk false true 0 else Alloc.mk true true 7)
      (fun _ => Alloc.mk false true 0)
      [⟨1, none, 0, none, 0⟩] [⟨1, none, 0, none, 0⟩] ⟨1, none, 0, none, 0⟩
      [] [] ⟨1, none, 0, none, 0, none, 0, 0, 0⟩).1
      (by decide) (Or.inl rfl) ⟨rfl, rfl⟩
    exact h.1

/-! ### `find_next_bit` characterization -/

theorem find_next_bit_stop (b : Nat → Bool) (size offset : Nat)
    (h : size ≤ offset) : find_next_bit b size offset = size := by
  unfold find_next_bit
  have h0 : size - offset = 0 := by omega
  rw [h0]
  rfl

theorem find_next_bit_step (b : Nat → Bool) (size offset : Nat)
    (h : offset < size) :
    find_next_bit b size offset =
      if b offset then offset else find_next_bit b size (offset + 1) := by
  unfold find_next_bit
  have h1 : size - offset = (size - (offset + 1)) + 1 := by omega
  rw [h1]
  simp only [findNextBitGo]
  rw [if_pos h]

theorem find_next_bit_le (b : Nat → Bool) (size offset : Nat) :
    find_next_bit b size offset ≤ size := by
  have key : ∀ n off, size - off ≤ n → find_next_bit b size off ≤ size := by
    intro n
    induction n with
    | zero =>
      intro off h
      rw [find_next_bit_stop b size off (by omega)]
    | succ n ih =>
      intro off h
      by_cases hlt : off < size
      · rw [find_next_bit_step b size off hlt]
        by_cases hb : b off
        · rw [if_pos hb]; omega
        · rw [if_neg hb]; exact ih (off + 1) (by omega)
      · rw [find_next_bit_stop b size off (by omega)]
  exact key (size - offset) offset le_rfl

theorem find_next_bit_ge (b : Nat → Bool) (size offset : Nat)
    (h : offset ≤ size) : offset ≤ find_next_bit b size offset := by
  have key : ∀ n off, size - off ≤ n → off ≤ size →
      off ≤ find_next_bit b size off := by
    intro n
    induction n with
    | zero =>
      intro off h1 h2
      rw [find_next_bit_stop b size off (by omega)]
      exact h2
    | succ n ih =>
      intro off h1 h2
      by_cases hlt : off < size
      · rw [find_next_bit_step b size off hlt]
        by_cases hb : b off
        · rw [if_pos hb]
        · rw [if_neg hb]
          have := ih (off + 1) (by omega) (by omega)
          omega
      · rw [find_next_bit_stop b size off (by omega)]
        omega
  exact key (size - offset) offset le_rfl h

theorem find_next_bit_found (b : Nat → Bool) (size offset : Nat)
    (h : find_next_bit b size offset < size) :
    b (find_next_bit b size offset) = true := by
  have key : ∀ n off, size - off ≤ n → find_next_bit b size off < size →
      b (find_next_bit b size off) = true := by
    intro n
    induction n with
    | zero =>
      intro off h1 h2
      rw [find_next_bit_stop b size off (by omega)] at h2
      omega
    | succ n ih =>
      intro off h1 h2
      by_cases hlt : off < size
      · rw [find_next_bit_step b size off hlt] at h2 ⊢
        by_cases hb : b off
        · rw [if_pos hb] at h2 ⊢; exact hb
        · rw [if_neg hb] at h2 ⊢
          exact ih (off + 1) (by omega) h2
      · rw [find_next_bit_stop b size off (by omega)] at h2
        omega
  exact key (size - offset) offset le_rfl h

theorem find_next_bit_min (b : Nat → Bool) (size offset : Nat) :
    ∀ j, offset ≤ j → j < find_next_bit b size offset → b j = false := by
  have key : ∀ n off, size - off ≤ n →
      ∀ j, off ≤ j → j < find_next_bit b size off → b j = false := by
    intro n
    induction n with
    | zero =>
      intro off h1 j hj1 hj2
      rw [find_next_bit_stop b size off (by omega)] at hj2
      omega
    | succ n ih =>
      intro off h1 j hj1 hj2
      by_cases hlt : off < size
      · rw [find_next_bit_step b size off hlt] at hj2
        by_cases hb : b off
        · rw [if_pos hb] at hj2; omega
        · rw [if_neg hb] at hj2
          rcases Nat.eq_or_lt_of_le hj1 with he | hl
          · have hb2 : b off = false := by simpa using hb
            rw [← he]
            exact hb2
          · exact ih (off + 1) (by omega) j hl hj2
      · rw [find_next_bit_stop b size off (by omega)] at hj2
        omega
  exact key (size - offset) offset le_rfl

theorem find_next_bit_self (b : Nat → Bool) (size offset : Nat)
    (h : offset < size) (hb : b offset = true) :
    find_next_bit b size offset = offset := by
  rw [find_next_bit_step b size offset h, if_pos hb]

theorem find_next_bit_skip (b : Nat → Bool) (size offset : Nat)
    (h : offset < size) (hb : b offset = false) :
    find_next_bit b size offset = find_next_bit b size (offset + 1) := by
  rw [find_next_bit_step b size offset h, if_neg (by simp [hb])]

/-! ### `fm10k_find_next_vlan` follows the member set `active ∪ \x7bdefault_vid\x7d` -/

theorem fnb_below (a : Nat → Bool) (dv : Nat) (hdv : dv < VLAN_N_VID) :
    ∀ off, off ≤ dv →
      find_next_bit a dv off = find_next_bit (memberB a dv) VLAN_N_VID off := by
  have key : ∀ n off, dv - off ≤ n → off ≤ dv →
      find_next_bit a dv off = find_next_bit (memberB a dv) VLAN_N_VID off := by
    intro n
    induction n with
    | zero =>
      intro off h1 h2
      have hoff : off = dv := by omega
      subst hoff
      rw [find_next_bit_stop a off off le_rfl,
        find_next_bit_self (memberB a off) VLAN_N_VID off hdv (by simp [memberB])]
    | succ n ih =>
      intro off h1 h2
      rcases Nat.eq_or_lt_of_le h2 with he | hl
      · subst he
        rw [find_next_bit_stop a off off le_rfl,
          find_next_bit_self (memberB a off) VLAN_N_VID off hdv (by simp [memberB])]
      · have hB : memberB a dv off = a off := by
          have : off ≠ dv := by omega
          simp [memberB, this]
        rw [find_next_bit_step a dv off hl,
          find_next_bit_step (memberB a dv) VLAN_N_VID off (by omega), hB]
        by_cases ha : a off
        · rw [if_pos ha, if_pos ha]
        · rw [if_neg ha, if_neg ha]
          exact ih (off + 1) (by omega) (by omega)
  intro off h
  exact key (dv - off) off le_rfl h

theorem fnb_above (a : Nat → Bool) (dv : Nat) :
    ∀ off, dv < off →
      find_next_bit a VLAN_N_VID off =
        find_next_bit (memberB a dv) VLAN_N_VID off := by
  have key : ∀ n off, VLAN_N_VID - off ≤ n → dv < off →
      find_next_bit a VLAN_N_VID off =
        find_next_bit (memberB a dv) VLAN_N_VID off := by
    intro n
    induction n with
    | zero =>
      intro off h1 h2
      rw [find_next_bit_stop a VLAN_N_VID off (by omega),
        find_next_bit_stop (memberB a dv) VLAN_N_VID off (by omega)]
    | succ n ih =>
      intro off h1 h2
      by_cases hlt : off < VLAN_N_VID
      · have hB : memberB a dv off = a off := by
          have : off ≠ dv := by omega
          simp [memberB, this]
        rw [find_next_bit_step a VLAN_N_VID off hlt,
          find_next_bit_step (memberB a dv) VLAN_N_VID off hlt, hB]
        by_cases ha : a off
        · rw [if_pos ha, if_pos ha]
        · rw [if_neg ha, if_neg ha]
          exact ih (off + 1) (by omega) (by omega)
      · rw [find_next_bit_stop a VLAN_N_VID off (by omega),
          find_next_bit_stop (memberB a dv) VLAN_N_VID off (by omega)]
  intro off h
  exact key (VLAN_N_VID - off) off le_rfl h

/-- The find-next-vlan scan with its default-vid limit equals the plain scan
for the first member of `active ∪ \x7bdefault_vid\x7d` after `vid`. -/
theorem fnv_eq_nextMember (s : Intfc) (hdv : s.default_vid < VLAN_N_VID)
    (vid : Nat) :
    fm10k_find_next_vlan s vid =
      nextMember (memberB s.active_vlans s.default_vid) (vid + 1) := by
  unfold fm10k_find_next_vlan nextMember
  by_cases hv : vid < s.default_vid
  · rw [if_pos hv]
    exact fnb_below s.active_vlans s.default_vid hdv (vid + 1) (by omega)
  · rw [if_neg hv]
    exact fnb_above s.active_vlans s.default_vid (vid + 1) (by omega)

/-! ### Queue operations only touch the queue and the allocation cursor -/

theorem queueVlanReq_preserves (s : Intfc) (vid vsi : Nat) (set : Bool) :
    (queueVlanReq s vid vsi set).2.active_vlans = s.active_vlans ∧
    (queueVlanReq s vid vsi set).2.default_vid = s.default_vid ∧
    (queueVlanReq s vid vsi set).2.allocs = s.allocs ∧
    (queueVlanReq s vid vsi set).2.flags = s.flags ∧
    (queueVlanReq s vid vsi set).2.xcast_mode = s.xcast_mode ∧
    (queueVlanReq s vid vsi set).2.uc_list = s.uc_list ∧
    (queueVlanReq s vid vsi set).2.mc_list = s.mc_list ∧
    (queueVlanReq s vid vsi set).2.glort = s.glort :=
  ⟨rfl, rfl, rfl, rfl, rfl, rfl, rfl, rfl⟩

theorem queueVlanReq_queue (s : Intfc) (vid vsi : Nat) (set : Bool)
    (h : s.allocs s.tick = true) :
    (queueVlanReq s vid vsi set).2.queue = s.queue ++ [.vlan vid vsi set] := by
  simp [queueVlanReq, fm10k_queue_vlan_request, h]

theorem fnv_queueVlanReq (s : Intfc) (vid vsi : Nat) (set : Bool) (v : Nat) :
    fm10k_find_next_vlan (queueVlanReq s vid vsi set).2 v =
      fm10k_find_next_vlan s v := rfl

/-! ### The clear-unused-vlans loop emits one request per maximal gap -/

theorem clearLoop_step (fuel : Nat) (s : Intfc) (prev vid : Nat) :
    clearUnusedVlansGo (fuel + 1) s prev vid =
      if prev < VLAN_N_VID then
        clearUnusedVlansGo fuel
          (if prev = vid then s
           else (queueVlanReq s
             (prev + ((vid - prev - 1) <<< FM10K_VLAN_LENGTH_SHIFT)) 0 false).2)
          (vid + 1)
          (fm10k_find_next_vlan
            (if prev = vid then s
             else (queueVlanReq s
               (prev + ((vid - prev - 1) <<< FM10K_VLAN_LENGTH_SHIFT)) 0 false).2)
            vid)
      else s := rfl

/-- Inside a run of non-members `(p, n)` that is preceded by the non-member
`p` and closed by the member `n` (when `n < 4096`), no id is a gap start. -/
theorem not_gapStart_of_run (b : Nat → Bool) (p n : Nat) (hp1 : 1 ≤ p)
    (hmin : ∀ j, p ≤ j → j < n → b j = false)
    (hn : n < VLAN_N_VID → b n = true) :
    ∀ j, p < j → j ≤ n → j < VLAN_N_VID → isGapStart b j = false := by
  intro j h1 h2 h3
  rcases Nat.lt_or_ge j n with hjn | hjn
  · have hbj : b j = false := hmin j (by omega) hjn
    have hbj1 : b (j - 1) = false := hmin (j - 1) (by omega) (by omega)
    have hne1 : j ≠ 1 := by omega
    simp [isGapStart, hbj, hbj1, hne1]
  · have hje : j = n := by omega
    subst hje
    simp [isGapStart, hn h3]

/-- Main loop invariantal characterization: started at `(p, nextMember p)`
with `p` just after a member (or at 1), the loop appends exactly one encoded
clear request per maximal gap start in `[p, 4096)`. -/
theorem clearLoop_gaps (a : Nat → Bool) (dv : Nat) (hdv : dv < VLAN_N_VID) :
    ∀ fuel p (s : Intfc), s.active_vlans = a → s.default_vid = dv →
      (∀ k, s.allocs k = true) → 1 ≤ p →
      (VLAN_N_VID ≤ p ∨ p = 1 ∨ memberB a dv (p - 1) = true) →
      VLAN_N_VID < p + fuel →
      (clearUnusedVlansGo fuel s p (nextMember (memberB a dv) p)).queue =
        s.queue ++
          ((List.range' p (VLAN_N_VID - p)).filter
            (isGapStart (memberB a dv))).map
            (fun st => gapRequest (st, nextMember (memberB a dv) st - 1)) := by
  intro fuel
  induction fuel with
  | zero =>
    intro p s hsa hsdv hall hp1 hinv hbound
    have hp : VLAN_N_VID ≤ p := by omega
    have h0 : VLAN_N_VID - p = 0 := by omega
    simp [clearUnusedVlansGo, h0]
  | succ fuel ih =>
    intro p s hsa hsdv hall hp1 hinv hbound
    by_cases hp : p < VLAN_N_VID
    · have hple : p ≤ VLAN_N_VID := by omega
      have hn_ge : p ≤ nextMember (memberB a dv) p :=
        find_next_bit_ge (memberB a dv) VLAN_N_VID p hple
      have hn_le : nextMember (memberB a dv) p ≤ VLAN_N_VID :=
        find_next_bit_le (memberB a dv) VLAN_N_VID p
      have hsdv4 : s.default_vid < VLAN_N_VID := by omega
      rw [clearLoop_step, if_pos hp]
      by_cases hpn : p = nextMember (memberB a dv) p
      · -- p itself is a member: no request, advance to p + 1
        have hBp : memberB a dv p = true := by
          have hlt4 : nextMember (memberB a dv) p < VLAN_N_VID := by omega
          have hfound : memberB a dv (nextMember (memberB a dv) p) = true :=
            find_next_bit_found (memberB a dv) VLAN_N_VID p hlt4
          rw [← hpn] at hfound
          exact hfound
        rw [if_pos hpn]
        have hfnv : fm10k_find_next_vlan s (nextMember (memberB a dv) p) =
            nextMember (memberB a dv) (nextMember (memberB a dv) p + 1) := by
          rw [fnv_eq_nextMember s hsdv4, hsa, hsdv]
        rw [hfnv, ← hpn]
        have hrec := ih (p + 1) s hsa hsdv hall (by omega)
          (Or.inr (Or.inr (by simpa using hBp))) (by omega)
        rw [hrec]
        have hsplit : VLAN_N_VID - p = (VLAN_N_VID - (p + 1)) + 1 := by omega
        rw [hsplit, List.range'_succ]
        have hgs : isGapStart (memberB a dv) p = false := by
          simp [isGapStart, hBp]
        simp [List.filter_cons, hgs]
      · -- gap from p to nextMember p - 1: one request, advance past the member
        have hlt : p < nextMember (memberB a dv) p :=
          lt_of_le_of_ne hn_ge hpn
        have hBp : memberB a dv p = false :=
          find_next_bit_min (memberB a dv) VLAN_N_VID p p le_rfl hlt
        rw [if_neg hpn]
        have hq : (queueVlanReq s
            (p + ((nextMember (memberB a dv) p - p - 1) <<<
              FM10K_VLAN_LENGTH_SHIFT)) 0 false).2.queue =
            s.queue ++ [.vlan (p + ((nextMember (memberB a dv) p - p - 1) <<<
              FM10K_VLAN_LENGTH_SHIFT)) 0 false] :=
          queueVlanReq_queue s _ 0 false (hall s.tick)
        have hfnv : fm10k_find_next_vlan (queueVlanReq s
            (p + ((nextMember (memberB a dv) p - p - 1) <<<
              FM10K_VLAN_LENGTH_SHIFT)) 0 false).2
            (nextMember (memberB a dv) p) =
            nextMember (memberB a dv) (nextMember (memberB a dv) p + 1) := by
          rw [fnv_queueVlanReq, fnv_eq_nextMember s hsdv4, hsa, hsdv]
        rw [hfnv]
        have hside2 : VLAN_N_VID ≤ nextMember (memberB a dv) p + 1 ∨
            nextMember (memberB a dv) p + 1 = 1 ∨
            memberB a dv (nextMember (memberB a dv) p + 1 - 1) = true := by
          rcases Nat.lt_or_ge (nextMember (memberB a dv) p) VLAN_N_VID with h4 | h4
          · refine Or.inr (Or.inr ?_)
            have hfound : memberB a dv (nextMember (memberB a dv) p) = true :=
              find_next_bit_found (memberB a dv) VLAN_N_VID p h4
            simpa using hfound
          · exact Or.inl (by omega)
        have hrec := ih (nextMember (memberB a dv) p + 1)
          (queueVlanReq s (p + ((nextMember (memberB a dv) p - p - 1) <<<
            FM10K_VLAN_LENGTH_SHIFT)) 0 false).2
          hsa hsdv hall (by omega) hside2 (by omega)
        rw [hrec, hq]
        -- list algebra on the right-hand side
        have hmin := find_next_bit_min (memberB a dv) VLAN_N_VID p
        have hmem : nextMember (memberB a dv) p < VLAN_N_VID →
            memberB a dv (nextMember (memberB a dv) p) = true :=
          fun h4 => find_next_bit_found (memberB a dv) VLAN_N_VID p h4
        have hnot := not_gapStart_of_run (memberB a dv) p
          (nextMember (memberB a dv) p) hp1 (fun j h1 h2 => hmin j h1 h2) hmem
        have hgsp : isGapStart (memberB a dv) p = true := by
          have hside : p = 1 ∨ memberB a dv (p - 1) = true := by
            rcases hinv with h | h | h
            · omega
            · exact Or.inl h
            · exact Or.inr h
          rcases hside with h | h
          · subst h
            simp [isGapStart, hBp]
          · simp [isGapStart, hBp, hp1, h]
        have henc : gapRequest (p, nextMember (memberB a dv) p - 1) =
            .vlan (p + ((nextMember (memberB a dv) p - p - 1) <<<
              FM10K_VLAN_LENGTH_SHIFT)) 0 false := by
          have harith : nextMember (memberB a dv) p - 1 - p =
              nextMember (memberB a dv) p - p - 1 := by omega
          simp [gapRequest, harith]
        rcases Nat.lt_or_ge (nextMember (memberB a dv) p) VLAN_N_VID with h4 | h4
        · -- the member closing the gap is a real vid
          have hsplit : List.range' p (VLAN_N_VID - p) =
              List.range' p (nextMember (memberB a dv) p + 1 - p) ++
                List.range' (nextMember (memberB a dv) p + 1)
                  (VLAN_N_VID - (nextMember (memberB a dv) p + 1)) := by
            have h2 : (VLAN_N_VID - (nextMember (memberB a dv) p + 1)) +
                (nextMember (memberB a dv) p + 1 - p) =
                VLAN_N_VID - p := by omega
            have h1 : p + (nextMember (memberB a dv) p + 1 - p) =
                nextMember (memberB a dv) p + 1 := by omega
            rw [← h2, ← List.range'_append_1 p
              (nextMember (memberB a dv) p + 1 - p)
              (VLAN_N_VID - (nextMember (memberB a dv) p + 1))]
            rw [h1]
          rw [hsplit, List.filter_append]
          have hfirst : (List.range' p (nextMember (memberB a dv) p + 1 - p)).filter
              (isGapStart (memberB a dv)) = [p] := by
            have hsz : nextMember (memberB a dv) p + 1 - p =
                (nextMember (memberB a dv) p - p) + 1 := by omega
            rw [hsz, List.range'_succ, List.filter_cons]
            simp only [hgsp, if_pos]
            have hnil : (List.range' (p + 1)
                (nextMember (memberB a dv) p - p)).filter
                (isGapStart (memberB a dv)) = [] := by
              rw [List.filter_eq_nil_iff]
              intro j hj
              rw [List.mem_range'_1] at hj
              have := hnot j (by omega) (by omega) (by omega)
              simp [this]
            rw [hnil]
          rw [hfirst]
          simp [henc]
        · -- no member up to 4095: the gap reaches 4095 and the loop stops next
          have hn4 : nextMember (memberB a dv) p = VLAN_N_VID := by omega
          have hz : VLAN_N_VID - (nextMember (memberB a dv) p + 1) = 0 := by
            omega
          rw [hz]
          have hsz : VLAN_N_VID - p = (VLAN_N_VID - 1 - p) + 1 := by omega
          rw [hsz, List.range'_succ, List.filter_cons]
          simp only [hgsp, if_pos]
          have hnil : (List.range' (p + 1) (VLAN_N_VID - 1 - p)).filter
              (isGapStart (memberB a dv)) = [] := by
            rw [List.filter_eq_nil_iff]
            intro j hj
            rw [List.mem_range'_1] at hj
            have := hnot j (by omega) (by omega) (by omega)
            simp [this]
          rw [hnil]
          simp [henc]
    · rw [clearLoop_step, if_neg hp]
      have h0 : VLAN_N_VID - p = 0 := by omega
      simp [h0]

set_option maxRecDepth 4000 in
/-- Main characterization: `fm10k_clear_unused_vlans` appends exactly one encoded clear request per
maximal gap of ids that are neither active members nor the default vid. -/
theorem clear_unused_vlans_queue (s : Intfc)
    (hdv : s.default_vid < VLAN_N_VID) (hall : ∀ k, s.allocs k = true) :
    (fm10k_clear_unused_vlans s).queue =
      s.queue ++
        (maximalGaps (memberB s.active_vlans s.default_vid)).map gapRequest := by
  unfold fm10k_clear_unused_vlans
  rw [clearLoop_step, if_pos (by decide : (0 : Nat) < VLAN_N_VID), if_pos rfl]
  rw [fnv_eq_nextMember s hdv 0]
  have hb := clearLoop_gaps s.active_vlans s.default_vid hdv 4099 1 s rfl rfl
    hall le_rfl (Or.inr (Or.inl rfl)) (by decide)
  rw [hb]
  refine congrArg (fun l => s.queue ++ l) ?_
  unfold maximalGaps
  rw [List.map_map]
  have hrange : List.range VLAN_N_VID = 0 :: List.range' 1 (VLAN_N_VID - 1) := by
    rw [List.range_eq_range']
    rfl
  have h0 : isGapStart (memberB s.active_vlans s.default_vid) 0 = false := by
    simp [isGapStart]
  rw [hrange, List.filter_cons]
  simp only [h0, Bool.false_eq_true, if_false]
  rfl

/-! ### The address-list sync phase only queues MAC requests -/

theorem queueMacReq_filter (s : Intfc) (glort : Nat) (addr : MacAddr)
    (vid : Nat) (set : Bool) :
    (queueMacReq s glort addr vid set).2.queue.filter Request.isVlan =
      s.queue.filter Request.isVlan ∧
    (queueMacReq s glort addr vid set).2.xcast_mode = s.xcast_mode := by
  refine ⟨?_, rfl⟩
  unfold queueMacReq fm10k_queue_mac_request
  by_cases h : s.allocs s.tick
  · by_cases hm : is_multicast_ether_addr addr <;>
      simp [h, hm, List.filter_append, Request.isVlan]
  · simp [h]

theorem queueMacVids_pres (glort : Nat) (addr : MacAddr) (sync : Bool) :
    ∀ (vids : List Nat) (s : Intfc),
      (queueMacVids glort addr sync vids s).2.queue.filter Request.isVlan =
        s.queue.filter Request.isVlan ∧
      (queueMacVids glort addr sync vids s).2.xcast_mode = s.xcast_mode := by
  intro vids
  induction vids with
  | nil => intro s; exact ⟨rfl, rfl⟩
  | cons v vs ih =>
    intro s
    unfold queueMacVids
    rcases hq : queueMacReq s glort addr v sync with ⟨res, s2⟩
    have hpres := queueMacReq_filter s glort addr v sync
    rw [hq] at hpres
    cases res with
    | ok u =>
      have := ih s2
      exact ⟨by rw [this.1, hpres.1], by rw [this.2, hpres.2]⟩
    | error e =>
      exact ⟨hpres.1, hpres.2⟩

theorem uc_sync_shared_pres (s : Intfc) (addr : MacAddr) (sync : Bool) :
    (fm10k_uc_sync_shared s addr sync).2.queue.filter Request.isVlan =
      s.queue.filter Request.isVlan ∧
    (fm10k_uc_sync_shared s addr sync).2.xcast_mode = s.xcast_mode := by
  unfold fm10k_uc_sync_shared
  by_cases h : is_valid_ether_addr addr
  · simp only [h, Bool.not_true, Bool.false_eq_true, if_false]
    exact queueMacVids_pres s.glort addr sync (activeVlanList s) s
  · simp only [Bool.not_eq_true] at h
    simp [h]

theorem mc_sync_shared_pres (s : Intfc) (addr : MacAddr) (sync : Bool) :
    (fm10k_mc_sync_shared s addr sync).2.queue.filter Request.isVlan =
      s.queue.filter Request.isVlan ∧
    (fm10k_mc_sync_shared s addr sync).2.xcast_mode = s.xcast_mode := by
  unfold fm10k_mc_sync_shared
  by_cases h : is_multicast_ether_addr addr
  · simp only [h, Bool.not_true, Bool.false_eq_true, if_false]
    exact queueMacVids_pres s.glort addr sync (activeVlanList s) s
  · simp only [Bool.not_eq_true] at h
    simp [h]

theorem uc_fold_pres (l : List MacAddr) :
    ∀ s : Intfc,
      ((l.foldl (fun t addr => (fm10k_uc_sync_shared t addr true).2) s).queue.filter
        Request.isVlan = s.queue.filter Request.isVlan) ∧
      (l.foldl (fun t addr => (fm10k_uc_sync_shared t addr true).2) s).xcast_mode =
        s.xcast_mode := by
  induction l with
  | nil => intro s; exact ⟨rfl, rfl⟩
  | cons a l ih =>
    intro s
    have h1 := uc_sync_shared_pres s a true
    have h2 := ih (fm10k_uc_sync_shared s a true).2
    exact ⟨by rw [List.foldl_cons, h2.1, h1.1], by rw [List.foldl_cons, h2.2, h1.2]⟩

theorem mc_fold_pres (l : List MacAddr) :
    ∀ s : Intfc,
      ((l.foldl (fun t addr => (fm10k_mc_sync_shared t addr true).2) s).queue.filter
        Request.isVlan = s.queue.filter Request.isVlan) ∧
      (l.foldl (fun t addr => (fm10k_mc_sync_shared t addr true).2) s).xcast_mode =
        s.xcast_mode := by
  induction l with
  | nil => intro s; exact ⟨rfl, rfl⟩
  | cons a l ih =>
    intro s
    have h1 := mc_sync_shared_pres s a true
    have h2 := ih (fm10k_mc_sync_shared s a true).2
    exact ⟨by rw [List.foldl_cons, h2.1, h1.1], by rw [List.foldl_cons, h2.2, h1.2]⟩

theorem dev_sync_pres (s : Intfc) :
    ((dev_mc_sync_model (dev_uc_sync_model s)).queue.filter Request.isVlan =
      s.queue.filter Request.isVlan) ∧
    (dev_mc_sync_model (dev_uc_sync_model s)).xcast_mode = s.xcast_mode := by
  have h1 := uc_fold_pres s.uc_list s
  have h2 := mc_fold_pres (dev_uc_sync_model s).mc_list (dev_uc_sync_model s)
  unfold dev_mc_sync_model dev_uc_sync_model at *
  exact ⟨by rw [h2.1, h1.1], by rw [h2.2, h1.2]⟩

/-! ### `fm10k_set_rx_mode` reduction lemmas -/

theorem set_rx_mode_changed (s : Intfc) (hup : s.flags.up = true)
    (hch : s.xcast_mode ≠ newXcastMode s.flags) :
    fm10k_set_rx_mode s =
      dev_mc_sync_model (dev_uc_sync_model
        { (if (if newXcastMode s.flags = .PROMISC then
                (queueVlanReq s FM10K_VLAN_ALL 0 true).2 else s).xcast_mode =
              .PROMISC
           then fm10k_clear_unused_vlans
             (if newXcastMode s.flags = .PROMISC then
               (queueVlanReq s FM10K_VLAN_ALL 0 true).2 else s)
           else (if newXcastMode s.flags = .PROMISC then
               (queueVlanReq s FM10K_VLAN_ALL 0 true).2 else s)) with
          xcast_mode := newXcastMode s.flags }) := by
  unfold fm10k_set_rx_mode
  rw [hup]
  simp only [Bool.not_true, Bool.false_eq_true, if_false]
  rw [if_pos hch]
  simp only [fm10k_is_ies, Bool.not_false, if_true]

theorem set_rx_mode_unchanged (s : Intfc) (hup : s.flags.up = true)
    (hch : s.xcast_mode = newXcastMode s.flags) :
    fm10k_set_rx_mode s = dev_mc_sync_model (dev_uc_sync_model s) := by
  unfold fm10k_set_rx_mode
  rw [hup]
  simp only [Bool.not_true, Bool.false_eq_true, if_false]
  rw [if_neg (by simpa using hch)]

/-- Every gap request is a VLAN request, so the VLAN filter keeps them all. -/
theorem filter_gapRequests (gaps : List (Nat × Nat)) :
    (gaps.map gapRequest).filter Request.isVlan = gaps.map gapRequest := by
  rw [List.filter_eq_self]
  intro r hr
  rcases List.mem_map.mp hr with ⟨g, _, hg⟩
  rw [← hg]
  rcases g with ⟨g1, g2⟩
  rfl

theorem filter_range_eq_singleton (q : Nat → Bool)
    (hq : ∀ j, q j = true ↔ j = 1) :
    ∀ n, 2 ≤ n → (List.range n).filter q = [1] := by
  intro n
  induction n with
  | zero => intro h; omega
  | succ n ih =>
    intro h
    rw [List.range_succ, List.filter_append]
    rcases Nat.lt_or_ge n 2 with h2 | h2
    · have hn1 : n = 1 := by omega
      subst hn1
      have h0 : q 0 = false := by
        cases hh : q 0 with
        | false => rfl
        | true => exact absurd ((hq 0).mp hh) (by omega)
      have h1 : q 1 = true := (hq 1).mpr rfl
      simp [List.range_succ, h0, h1]
    · have hqn : q n = false := by
        cases hh : q n with
        | false => rfl
        | true => exact absurd ((hq n).mp hh) (by omega)
      rw [ih h2]
      simp [hqn]

theorem filter_range_eq_pair (q : Nat → Bool)
    (hq : ∀ j, q j = true ↔ (j = 1 ∨ j = 101)) :
    ∀ n, 2 ≤ n →
      (List.range n).filter q = (if n ≤ 101 then [1] else [1, 101]) := by
  intro n
  induction n with
  | zero => intro h; omega
  | succ n ih =>
    intro h
    rw [List.range_succ, List.filter_append]
    rcases Nat.lt_or_ge n 2 with h2 | h2
    · have hn1 : n = 1 := by omega
      subst hn1
      have h0 : q 0 = false := by
        cases hh : q 0 with
        | false => rfl
        | true => exact absurd ((hq 0).mp hh) (by omega)
      have h1 : q 1 = true := (hq 1).mpr (Or.inl rfl)
      rw [if_pos (by omega)]
      simp [List.range_succ, h0, h1]
    · by_cases hn101 : n = 101
      · subst hn101
        have h101 : q 101 = true := (hq 101).mpr (Or.inr rfl)
        rw [ih h2, if_pos (by omega), if_neg (by omega)]
        simp [h101]
      · have hqn : q n = false := by
          cases hh : q n with
          | false => rfl
          | true =>
            rcases (hq n).mp hh with h | h <;> omega
        rw [ih h2]
        by_cases h4 : n ≤ 101
        · rw [if_pos h4, if_pos (by omega)]
          simp [hqn]
        · rw [if_neg h4, if_neg (by omega)]
          simp [hqn]

/-- C7 counterexample to the claim as stated: leaving promiscuous mode with
no active VLANs and default vid 100, the code enqueues two clear requests,
while there is exactly one maximal gap of consecutive non-member VLAN ids
(the claim would predict one request): the walk stops at the default vid
even though it is not a member. -/
theorem claim_C7_counterexample_default_vid :
    ((fm10k_set_rx_mode promiscExitIntfc).queue.filter Request.isVlan).length = 2 ∧
    (maximalGaps promiscExitIntfc.active_vlans).length = 1 := by
  have hqpair : ∀ j, isGapStart (memberB promiscExitIntfc.active_vlans
      promiscExitIntfc.default_vid) j = true ↔ (j = 1 ∨ j = 101) := by
    intro j
    simp only [isGapStart, memberB, promiscExitIntfc, sampleIntfc]
    simp only [Bool.false_or, Bool.or_eq_true, Bool.and_eq_true,
      Bool.not_eq_true', decide_eq_true_eq, decide_eq_false_iff_not]
    omega
  have hqsing : ∀ j, isGapStart promiscExitIntfc.active_vlans j = true ↔
      j = 1 := by
    intro j
    simp only [isGapStart, promiscExitIntfc, sampleIntfc]
    simp only [Bool.or_eq_true, Bool.and_eq_true, Bool.not_eq_true',
      decide_eq_true_eq, decide_eq_false_iff_not]
    simp only [and_true, Bool.false_eq_true, or_false]
    omega
  constructor
  · have hch : promiscExitIntfc.xcast_mode ≠
        newXcastMode promiscExitIntfc.flags := by decide
    rw [set_rx_mode_changed promiscExitIntfc rfl hch, (dev_sync_pres _).1]
    rw [if_neg (by decide : ¬newXcastMode promiscExitIntfc.flags = .PROMISC)]
    rw [if_pos (by decide : promiscExitIntfc.xcast_mode = XcastMode.PROMISC)]
    dsimp only
    rw [clear_unused_vlans_queue promiscExitIntfc (by decide) (fun k => rfl)]
    have hq0 : promiscExitIntfc.queue = [] := rfl
    rw [hq0, List.nil_append, filter_gapRequests, List.length_map]
    unfold maximalGaps
    rw [List.length_map]
    rw [filter_range_eq_pair _ hqpair VLAN_N_VID (by decide)]
    rw [if_neg (by decide)]
    rfl
  · unfold maximalGaps
    rw [List.length_map]
    rw [filter_range_eq_singleton _ hqsing VLAN_N_VID (by decide)]
    rfl

/-- C7 (amended): for an administratively up interface, `set_rx_mode`
computes the new xcast mode by the priority order
promiscuous > allmulti > (broadcast-or-multicast) > none and stores it; on a
transition into promiscuous it enqueues exactly one set-all-VLANs request
(and no other VLAN request); on a transition out of promiscuous it enqueues
exactly one run-length-compressed clear request per maximal gap of
consecutive VLAN ids that are neither active members nor the administrative
default vid. -/
theorem claim_C7_set_rx_mode_transitions (s : Intfc)
    (hup : s.flags.up = true) (hdv : s.default_vid < VLAN_N_VID)
    (hall : ∀ k, s.allocs k = true) :
    (s.flags.promisc = true → newXcastMode s.flags = .PROMISC) ∧
    (s.flags.promisc = false → s.flags.allmulti = true →
      newXcastMode s.flags = .ALLMULTI) ∧
    (s.flags.promisc = false → s.flags.allmulti = false →
      (s.flags.broadcast || s.flags.multicast) = true →
      newXcastMode s.flags = .MULTI) ∧
    (s.flags.promisc = false → s.flags.allmulti = false →
      (s.flags.broadcast || s.flags.multicast) = false →
      newXcastMode s.flags = .NONE) ∧
    ((fm10k_set_rx_mode s).xcast_mode = newXcastMode s.flags) ∧
    (s.xcast_mode ≠ .PROMISC → newXcastMode s.flags = .PROMISC →
      (fm10k_set_rx_mode s).queue.filter Request.isVlan =
        s.queue.filter Request.isVlan ++ [.vlan FM10K_VLAN_ALL 0 true]) ∧
    (s.xcast_mode = .PROMISC → newXcastMode s.flags ≠ .PROMISC →
      (fm10k_set_rx_mode s).queue.filter Request.isVlan =
        s.queue.filter Request.isVlan ++
          (maximalGaps (memberB s.active_vlans s.default_vid)).map gapRequest) := by
  refine ⟨?_, ?_, ?_, ?_, ?_, ?_, ?_⟩
  · intro h; simp [newXcastMode, h]
  · intro h1 h2; simp [newXcastMode, h1, h2]
  · intro h1 h2 h3; simp [newXcastMode, h1, h2, h3]
  · intro h1 h2 h3; simp [newXcastMode, h1, h2, h3]
  · by_cases hch : s.xcast_mode = newXcastMode s.flags
    · rw [set_rx_mode_unchanged s hup hch, (dev_sync_pres s).2, hch]
    · rw [set_rx_mode_changed s hup hch, (dev_sync_pres _).2]
  · intro hold hnew
    have hch : s.xcast_mode ≠ newXcastMode s.flags := by
      rw [hnew]; exact hold
    rw [set_rx_mode_changed s hup hch, (dev_sync_pres _).1]
    rw [if_pos hnew]
    have hx : (queueVlanReq s FM10K_VLAN_ALL 0 true).2.xcast_mode =
        s.xcast_mode := rfl
    rw [hx, if_neg hold]
    show ((queueVlanReq s FM10K_VLAN_ALL 0 true).2.queue).filter
      Request.isVlan = _
    rw [queueVlanReq_queue s FM10K_VLAN_ALL 0 true (hall s.tick)]
    simp [List.filter_append, Request.isVlan]
  · intro hold hnew
    have hch : s.xcast_mode ≠ newXcastMode s.flags := by
      rw [hold]; exact fun h => hnew h.symm
    rw [set_rx_mode_changed s hup hch, (dev_sync_pres _).1]
    rw [if_neg hnew, if_pos hold]
    show ((fm10k_clear_unused_vlans s).queue).filter Request.isVlan = _
    rw [clear_unused_vlans_queue s hdv hall]
    rw [List.filter_append, filter_gapRequests]

/-- C7 witness: the concrete promiscuous-exit interface satisfies the
hypotheses, the stored mode after the call is the recomputed one, and the
enqueued VLAN requests are exactly the per-gap clear requests of the member
set `active ∪ \x7bdefault vid 100\x7d`. -/
theorem claim_C7_set_rx_mode_transitions_witness :
    (promiscExitIntfc.flags.up = true ∧
      promiscExitIntfc.default_vid < VLAN_N_VID ∧
      promiscExitIntfc.xcast_mode = .PROMISC ∧
      newXcastMode promiscExitIntfc.flags ≠ .PROMISC) ∧
    (fm10k_set_rx_mode promiscExitIntfc).xcast_mode =
      newXcastMode promiscExitIntfc.flags ∧
    (fm10k_set_rx_mode promiscExitIntfc).queue.filter Request.isVlan =
      promiscExitIntfc.queue.filter Request.isVlan ++
        (maximalGaps (memberB promiscExitIntfc.active_vlans
          promiscExitIntfc.default_vid)).map gapRequest := by
  refine ⟨⟨rfl, by decide, rfl, by decide⟩, ?_, ?_⟩
  · exact (claim_C7_set_rx_mode_transitions promiscExitIntfc rfl (by decide)
      (fun k => rfl)).2.2.2.2.1
  · exact (claim_C7_set_rx_mode_transitions promiscExitIntfc rfl (by decide)
      (fun k => rfl)).2.2.2.2.2.2 rfl (by decide)

end Fm10k
